import Mathlib

/-!
# Yagmur: the bloom garden (`js/garden.js`) and the heart seeding (`js/functions.js`)

A shallow embedding of the animation engine of the repository.

Conventions of the embedding

* JavaScript numbers are exact rationals (`ℚ`); every finite double is a rational, and
  `NaN` and the infinities are not modelled.  Arithmetic is exact, except where the rounding
  of a double sum decides what the program does next: there the sum passes through a
  function `fl` of which nothing is assumed (the growth of a petal in the 50-tick scenario,
  `Petal.renderFl` to `Garden.rendersFl`, and the angle of the heart seeding).  Where the
  source calls `Math.cos`,
  `Math.sin` or `Math.sqrt` the definition is generic in the number type and takes the
  function as an argument; the theorems instantiate it with `ℝ` and `Real.cos`, `Real.sin`,
  `Real.sqrt`.
* Objects that are shared and mutated through references (the `Bloom`s of a `Garden`) live
  in a store addressed by a reference (a natural number); `garden.blooms` is the list of
  references, so `indexOf` compares references as `===` does on objects.
* `Math.random()` is a stream `rnd : ℕ → ℚ` read at a cursor; a function that draws samples
  returns the advanced cursor.
* The static, mutable `Garden.options` and `window.innerWidth` are passed explicitly.
* Canvas calls (`clearRect`, `save`, `translate`, `stroke`, ...) have no effect on the
  state modelled here and are left out.
-/

namespace Yagmur

/-! ## Data model -/

/-- `class Vector` (garden.js 2-41): the two coordinates. -/
structure Vector (α : Type) where
  x : α
  y : α
deriving DecidableEq, Repr

/-- The value built by `Garden.rgba(r, g, b, a)`: the four components of the string
`rgba(r,g,b,a)`. -/
structure Rgba where
  r : ℤ
  g : ℤ
  b : ℤ
  a : ℚ
deriving DecidableEq, Repr

/-- A `{min, max}` pair of `Garden.options`. -/
structure Range where
  min : ℚ
  max : ℚ
deriving DecidableEq, Repr

/-- `Garden.options.color`. -/
structure ColorOptions where
  rmin : ℚ
  rmax : ℚ
  gmin : ℚ
  gmax : ℚ
  bmin : ℚ
  bmax : ℚ
  opacity : ℚ
deriving DecidableEq, Repr

/-- The shape of the static object `Garden.options` (garden.js 259-288). -/
structure Options where
  petalCount : Range
  petalStretch : Range
  growFactor : Range
  bloomRadius : Range
  density : ℚ
  growSpeed : ℚ
  color : ColorOptions
  tanAngle : ℚ
deriving DecidableEq, Repr

/-- The initial value of `Garden.options` (garden.js 259-288). -/
def Garden.options : Options where
  petalCount := ⟨8, 15⟩
  petalStretch := ⟨1 / 10, 3⟩
  growFactor := ⟨1 / 10, 1⟩
  bloomRadius := ⟨8, 10⟩
  density := 10
  growSpeed := 1000 / 60
  color := ⟨128, 255, 0, 128, 0, 128, 1 / 10⟩
  tanAngle := 60

/-- `class Petal` (garden.js 43-55); the back-reference `bloom` is not stored, the radius
`this.bloom.r` it is read for is passed to `Petal.render`. -/
structure Petal where
  stretchA : ℚ
  stretchB : ℚ
  startAngle : ℚ
  angle : ℚ
  growFactor : ℚ
  r : ℚ
  isfinished : Bool
  opacity : ℚ
  maxOpacity : ℚ
deriving DecidableEq, Repr

/-- `class Bloom` (garden.js 104-116); the back-reference `garden` is not stored. -/
structure Bloom where
  p : Vector ℚ
  r : ℚ
  c : Rgba
  pc : ℚ
  petals : List Petal
  scale : ℚ
  maxScale : ℚ
deriving DecidableEq, Repr

/-- The canvas element, as far as the garden reads it: `element.width`, `element.height`. -/
structure Canvas where
  width : ℚ
  height : ℚ
deriving DecidableEq, Repr

/-- `class Garden` (garden.js 159-168).  `blooms` holds references into `store`;
`nextRef` is the next unused reference (object allocation). -/
structure Garden where
  blooms : List ℕ
  store : ℕ → Bloom
  nextRef : ℕ
  element : Canvas
  lastTime : ℚ
  frameRate : ℚ
  frameInterval : ℚ

/-- One invocation of `Bloom.draw`: the receiver and the garden before and after it. -/
structure DrawCall where
  this : ℕ
  before : Garden
  after : Garden

/-! ## Static helpers of `Garden` -/

/-- `Garden.random(min, max)` (garden.js 290-292), `u` being the value of `Math.random()`. -/
def Garden.random (u min max : ℚ) : ℚ :=
  u * (max - min) + min

/-- `Garden.randomInt(min, max)` (garden.js 294-296), `u` being the value of
`Math.random()`. -/
def Garden.randomInt (u min max : ℚ) : ℚ :=
  (⌊u * (max - min + 1)⌋ : ℤ) + min

/-- `Math.round`: the nearest integer, a tie going up. -/
def Math.round (q : ℚ) : ℤ :=
  ⌊q + 1 / 2⌋

/-- `Garden.rgba(r, g, b, a)` (garden.js 308-310). -/
def Garden.rgba (r g b : ℤ) (a : ℚ) : Rgba :=
  ⟨r, g, b, a⟩

/-- `Garden.randomrgba` (garden.js 312-323).  Each attempt reads three samples at the
cursor `k`; a near-grey triple recurses.  The first argument bounds the depth of the
recursion, `none` meaning that the bound was reached. -/
def Garden.randomrgba : ℕ → (ℕ → ℚ) → ℕ → ℚ → ℚ → ℚ → ℚ → ℚ → ℚ → ℚ → Option (Rgba × ℕ)
  | 0, _, _, _, _, _, _, _, _, _ => none
  | fuel + 1, rnd, k, rmin, rmax, gmin, gmax, bmin, bmax, a =>
    let r := Math.round (Garden.random (rnd k) rmin rmax)
    let g := Math.round (Garden.random (rnd (k + 1)) gmin gmax)
    let b := Math.round (Garden.random (rnd (k + 2)) bmin bmax)
    let limit : ℤ := 5
    if |r - g| ≤ limit ∧ |g - b| ≤ limit ∧ |b - r| ≤ limit then
      Garden.randomrgba fuel rnd (k + 3) rmin rmax gmin gmax bmin bmax a
    else
      some (Garden.rgba r g b a, k + 3)

/-- `Garden.getResponsiveScale` (garden.js 333-338), `width` being `window.innerWidth`. -/
def Garden.getResponsiveScale (width : ℚ) : ℚ :=
  if width ≤ 480 then 7 / 10
  else if width ≤ 768 then 85 / 100
  else 1

/-- `Garden.setupResponsive` (garden.js 170-197) as a function on `Garden.options`,
`screenWidth` being `window.innerWidth`. -/
def Garden.setupResponsive (screenWidth : ℚ) (o : Options) : Options :=
  let o1 : Options :=
    if screenWidth ≤ 480 then
      { o with density := 5, bloomRadius := ⟨4, 6⟩, petalCount := ⟨6, 10⟩ }
    else if screenWidth ≤ 768 then
      { o with density := 7, bloomRadius := ⟨6, 8⟩, petalCount := ⟨7, 12⟩ }
    else
      { o with density := 10, bloomRadius := ⟨8, 10⟩, petalCount := ⟨8, 15⟩ }
  { o1 with color := { o1.color with opacity := if screenWidth ≤ 480 then 15 / 100 else 1 / 10 } }

/-! ## Petal -/

/-- `Petal.constructor` (garden.js 44-55); `o` is `Garden.options` at that moment. -/
def Petal.new (o : Options) (stretchA stretchB startAngle angle growFactor : ℚ) : Petal where
  stretchA := stretchA
  stretchB := stretchB
  startAngle := startAngle
  angle := angle
  growFactor := growFactor
  r := 1
  isfinished := false
  opacity := 0
  maxOpacity := o.color.opacity

/-- `Petal.draw` (garden.js 57-92): the opacity step; the strokes are not modelled. -/
def Petal.draw (p : Petal) : Petal :=
  if p.opacity < p.maxOpacity then { p with opacity := p.opacity + p.maxOpacity / 20 } else p

/-- `Petal.render` (garden.js 94-101); `bloomR` is `this.bloom.r`.  The flag tells whether
`draw` was invoked. -/
def Petal.render (bloomR : ℚ) (p : Petal) : Petal × Bool :=
  if p.r ≤ bloomR then
    (Petal.draw { p with r := p.r + p.growFactor }, true)
  else
    ({ p with isfinished := true }, false)

/-! ## Bloom and Garden -/

/-- `Garden.addBloom` (garden.js 211-213). -/
def Garden.addBloom (g : Garden) (b : ℕ) : Garden :=
  { g with blooms := g.blooms ++ [b] }

/-- `Garden.removeBloom` (garden.js 215-220): `indexOf`, then `splice(index, 1)` when the
reference was found. -/
def Garden.removeBloom (g : Garden) (b : ℕ) : Garden :=
  let index := g.blooms.indexOf b
  if index < g.blooms.length then { g with blooms := g.blooms.eraseIdx index } else g

/-- The petal loop of `Bloom.draw` (garden.js 129-133): renders the petals in order and
accumulates `isfinished = isfinished && p.isfinished`. -/
def Bloom.renderPetals (bloomR : ℚ) : List Petal → Bool → List Petal × Bool
  | [], isfinished => ([], isfinished)
  | p :: ps, isfinished =>
    let p1 := (Petal.render bloomR p).1
    let rest := Bloom.renderPetals bloomR ps (isfinished && p1.isfinished)
    (p1 :: rest.1, rest.2)

/-- `Bloom.draw` (garden.js 118-140) on the Bloom at reference `this`. -/
def Bloom.draw (g : Garden) (this : ℕ) : Garden :=
  let b := g.store this
  let scale := if b.scale < b.maxScale then b.scale + 2 / 100 else b.scale
  let rendered := Bloom.renderPetals b.r b.petals true
  let g1 : Garden :=
    { g with store := Function.update g.store this { b with scale := scale, petals := rendered.1 } }
  if rendered.2 then g1.removeBloom this else g1

/-- The loop of `Garden.render` (garden.js 203-205), from index `i`: the bound
`this.blooms.length` is read again at every iteration.  The first argument bounds the
number of iterations (see `Garden.renderLoop_fuel`: `blooms.length - i` is enough). -/
def Garden.renderLoop : ℕ → ℕ → Garden → Garden × List DrawCall
  | 0, _, g => (g, [])
  | fuel + 1, i, g =>
    if i < g.blooms.length then
      let this := g.blooms.getD i 0
      let g1 := Bloom.draw g this
      let rest := Garden.renderLoop fuel (i + 1) g1
      (rest.1, ⟨this, g, g1⟩ :: rest.2)
    else (g, [])

/-- `Garden.render(currentTime)` (garden.js 199-209), with the `Bloom.draw` invocations
it made, in order. -/
def Garden.render (g : Garden) (currentTime : ℚ) : Garden × List DrawCall :=
  if currentTime - g.lastTime ≥ g.frameInterval then
    let looped := Garden.renderLoop g.blooms.length 0 g
    ({ looped.1 with lastTime := currentTime }, looped.2)
  else (g, [])

/-- A sequence of `Garden.render` calls at the given times, with all the `Bloom.draw`
invocations made, in order. -/
def Garden.renders (g : Garden) : List ℚ → Garden × List DrawCall
  | [] => (g, [])
  | t :: ts =>
    let first := g.render t
    let rest := Garden.renders first.1 ts
    (rest.1, first.2 ++ rest.2)

/-- The number of iterations of `for (let i = 0; i < pc; i++)`: the naturals below `pc`
(see `Bloom.petalIterations_spec`). -/
def Bloom.petalIterations (pc : ℚ) : ℕ :=
  (⌈pc⌉ : ℤ).toNat

/-- The loop of `Bloom.init` (garden.js 146-155): `n` more petals from index `i`, the
three `Garden.random` samples of each petal read at the cursor `k`. -/
def Bloom.initLoop (o : Options) (rnd : ℕ → ℚ) (angle startAngle : ℚ) : ℕ → ℕ → ℕ → List Petal
  | 0, _, _ => []
  | n + 1, i, k =>
    Petal.new o
      (Garden.random (rnd k) o.petalStretch.min o.petalStretch.max)
      (Garden.random (rnd (k + 1)) o.petalStretch.min o.petalStretch.max)
      (startAngle + i * angle)
      angle
      (Garden.random (rnd (k + 2)) o.growFactor.min o.growFactor.max)
    :: Bloom.initLoop o rnd angle startAngle n (i + 1) (k + 3)

/-- `Bloom.init` (garden.js 142-156): the petals of a Bloom with petal count `pc`, and the
cursor after the samples read. -/
def Bloom.init (o : Options) (rnd : ℕ → ℚ) (k : ℕ) (pc : ℚ) : List Petal × ℕ :=
  let angle := 360 / pc
  let startAngle := Garden.randomInt (rnd k) 0 90
  (Bloom.initLoop o rnd angle startAngle (Bloom.petalIterations pc) 0 (k + 1),
    k + 1 + 3 * Bloom.petalIterations pc)

/-- `Bloom.constructor` (garden.js 105-116): builds the Bloom, allocates it at the
reference `g.nextRef` and registers it with `Garden.addBloom`. -/
def Bloom.new (o : Options) (innerWidth : ℚ) (rnd : ℕ → ℚ) (k : ℕ)
    (p : Vector ℚ) (r : ℚ) (c : Rgba) (pc : ℚ) (g : Garden) : Garden × ℕ :=
  let made := Bloom.init o rnd k pc
  let b : Bloom :=
    { p := p, r := r, c := c, pc := pc, petals := made.1, scale := 1,
      maxScale := Garden.getResponsiveScale innerWidth }
  let g1 : Garden :=
    { g with store := Function.update g.store g.nextRef b, nextRef := g.nextRef + 1 }
  (g1.addBloom g.nextRef, made.2)

/-- `Garden.createBloom` (garden.js 240-242). -/
def Garden.createBloom (o : Options) (innerWidth : ℚ) (rnd : ℕ → ℚ) (k : ℕ)
    (g : Garden) (x y r : ℚ) (c : Rgba) (pc : ℚ) : Garden × ℕ :=
  Bloom.new o innerWidth rnd k ⟨x, y⟩ r c pc g

/-- `Garden.createRandomBloom` (garden.js 222-238).  The arguments of `createBloom` are
evaluated left to right: radius, colour, petal count.  `fuel` bounds the recursion of
`Garden.randomrgba`; `none` means that the colour sampling did not return. -/
def Garden.createRandomBloom (fuel : ℕ) (o : Options) (innerWidth : ℚ) (rnd : ℕ → ℚ) (k : ℕ)
    (g : Garden) (x y : ℚ) : Option (Garden × ℕ) :=
  let x1 := max 0 (min x g.element.width)
  let y1 := max 0 (min y g.element.height)
  let r := Garden.randomInt (rnd k) o.bloomRadius.min o.bloomRadius.max
  match Garden.randomrgba fuel rnd (k + 1) o.color.rmin o.color.rmax o.color.gmin o.color.gmax
      o.color.bmin o.color.bmax o.color.opacity with
  | none => none
  | some (c, k1) =>
    let pc := Garden.randomInt (rnd k1) o.petalCount.min o.petalCount.max
    some (Garden.createBloom o innerWidth rnd (k1 + 1) g x1 y1 r c pc)

/-- The Bloom stored at a reference that was never allocated. -/
def Bloom.unallocated : Bloom :=
  { p := ⟨0, 0⟩, r := 0, c := ⟨0, 0, 0, 0⟩, pc := 0, petals := [], scale := 1, maxScale := 1 }

/-- `Garden.constructor` (garden.js 160-168): the fresh garden and `Garden.options` after
`setupResponsive`. -/
def Garden.new (innerWidth : ℚ) (o : Options) (element : Canvas) : Garden × Options :=
  ({ blooms := [], store := fun _ => Bloom.unallocated, nextRef := 0, element := element,
     lastTime := 0, frameRate := 60, frameInterval := 1000 / 60 },
   Garden.setupResponsive innerWidth o)

/-- The references of `garden.blooms` are pairwise distinct and allocated: no Bloom object
is registered twice.  It holds of a fresh garden and is kept by every operation. -/
def Garden.WF (g : Garden) : Prop :=
  g.blooms.Nodup ∧ ∀ b ∈ g.blooms, b < g.nextRef

/-! ## Vector -/

/-- `Vector.rotate(theta)` (garden.js 8-14) on the Vector at reference `this` of a store
of Vector objects: the store after the call and the returned reference.  `cos` and `sin`
stand for `Math.cos` and `Math.sin`. -/
def Vector.rotate {α : Type} [Ring α] (cos sin : α → α) (σ : ℕ → Vector α) (this : ℕ)
    (theta : α) : (ℕ → Vector α) × ℕ :=
  let x := (σ this).x
  let y := (σ this).y
  (Function.update σ this ⟨cos theta * x - sin theta * y, sin theta * x + cos theta * y⟩, this)

/-- `Vector.length()` (garden.js 26-28); `sqrt` stands for `Math.sqrt`. -/
def Vector.length {α : Type} [Ring α] (sqrt : α → α) (v : Vector α) : α :=
  sqrt (v.x * v.x + v.y * v.y)

/-! ## Heart seeding (`LoveApp.startHeartAnimation`, functions.js 203-240) -/

/-- The variables of one run of `startHeartAnimation`: `angle`, the list `heart`, the
arguments of the `createRandomBloom` calls made so far, and whether the interval timer is
still set. -/
structure HeartRun (α : Type) where
  angle : α
  heart : List (α × α)
  requested : List (α × α)
  running : Bool

/-- The distance loop (functions.js 219-226): whether some point of `heart` is closer to
`bloom` than `maxR * 1.3`, `maxR` being `Garden.options.bloomRadius.max`. -/
def LoveApp.tooClose {α : Type} [LinearOrderedField α] (sqrt : α → α) (maxR : α)
    (bloom : α × α) : List (α × α) → Bool
  | [] => false
  | p :: ps =>
    let distance := sqrt ((p.1 - bloom.1) ^ 2 + (p.2 - bloom.2) ^ 2)
    if distance < maxR * (13 / 10) then true else LoveApp.tooClose sqrt maxR bloom ps

/-- What one firing of the interval callback reads from its surroundings (functions.js
209-228): `getHeartPoint` (with the offsets and the viewport scale of that moment), the canvas
size `gardenCanvas.width`, `gardenCanvas.height`, `Garden.options.bloomRadius.max`, and
whether `this.garden` is set.  A resize between two callbacks changes them
(`LoveApp.handleResize`, functions.js 179-193). -/
structure HeartEnv (α : Type) where
  getHeartPoint : α → α × α
  width : α
  height : α
  maxR : α
  hasGarden : Bool

/-- One firing of the interval callback (functions.js 208-239) in the surroundings `e`.
`fl` is the rounding of the double sum in `angle += 0.2` (nothing is assumed of it), `sqrt`
stands for `Math.sqrt`. -/
def LoveApp.heartTick {α : Type} [LinearOrderedField α] (fl sqrt : α → α) (e : HeartEnv α)
    (s : HeartRun α) : HeartRun α :=
  if s.running then
    let bloom := e.getHeartPoint s.angle
    let inBounds : Bool :=
      !(decide (bloom.1 < 0) || decide (bloom.1 > e.width) ||
        decide (bloom.2 < 0) || decide (bloom.2 > e.height))
    let draw : Bool := inBounds && !LoveApp.tooClose sqrt e.maxR bloom s.heart
    let s1 : HeartRun α :=
      if draw && e.hasGarden then
        { s with heart := s.heart ++ [bloom], requested := s.requested ++ [bloom] }
      else s
    if s1.angle ≥ 30 then { s1 with running := false }
    else { s1 with angle := fl (s1.angle + 2 / 10) }
  else s

/-- `LoveApp.startHeartAnimation` followed by `n` intervals of the timer, the `k`-th
callback (from 0) running in the surroundings `env k`. -/
def LoveApp.startHeartAnimation {α : Type} [LinearOrderedField α] (fl sqrt : α → α)
    (env : ℕ → HeartEnv α) : ℕ → HeartRun α
  | 0 => { angle := 10, heart := [], requested := [], running := true }
  | n + 1 => LoveApp.heartTick fl sqrt (env n) (LoveApp.startHeartAnimation fl sqrt env n)

/-- The surroundings of a run that starts on a desktop viewport (canvas 670x625,
`bloomRadius.max` 10) and is resized to a mobile viewport (canvas 380x300, `bloomRadius.max`
6) after the first callback.  The points are the values of `getHeartPoint` to two decimals:
`getHeartPoint(10)` on the desktop, `getHeartPoint(10.2)` on the mobile viewport. -/
def resizedHeartEnv (α : Type) [LinearOrderedField α] (k : ℕ) : HeartEnv α :=
  if k = 0 then
    { getHeartPoint := fun _ => (33498 / 100, 59697 / 100), width := 670, height := 625,
      maxR := 10, hasGarden := true }
  else
    { getHeartPoint := fun _ => (18975 / 100, 35561 / 100), width := 380, height := 300,
      maxR := 6, hasGarden := true }

/-- The surroundings of a run on a desktop viewport that is not resized. -/
def desktopHeartEnv (α : Type) [LinearOrderedField α] (_ : ℕ) : HeartEnv α :=
  { getHeartPoint := fun _ => (33498 / 100, 59697 / 100), width := 670, height := 625,
    maxR := 10, hasGarden := true }

/-- `n` successive `Petal.render` calls on one petal, `this.bloom.r` being `bloomR` at each
of them. -/
def Petal.renderN (bloomR : ℚ) : ℕ → Petal → Petal
  | 0, p => p
  | n + 1, p => (Petal.render bloomR (Petal.renderN bloomR n p)).1

/-- The three rounded channel samples `(r, g, b)` that an attempt of `Garden.randomrgba`
reads at cursor `k` (garden.js 313-315). -/
def Garden.channels (rnd : ℕ → ℚ) (k : ℕ) (rmin rmax gmin gmax bmin bmax : ℚ) : ℤ × ℤ × ℤ :=
  (Math.round (Garden.random (rnd k) rmin rmax),
   Math.round (Garden.random (rnd (k + 1)) gmin gmax),
   Math.round (Garden.random (rnd (k + 2)) bmin bmax))

/-- The rejection test of `Garden.randomrgba` (garden.js 318): all three pairwise channel
differences are at most `limit = 5`. -/
def Garden.nearGrey (c : ℤ × ℤ × ℤ) : Prop :=
  |c.1 - c.2.1| ≤ 5 ∧ |c.2.1 - c.2.2| ≤ 5 ∧ |c.2.2 - c.1| ≤ 5

instance (c : ℤ × ℤ × ℤ) : Decidable (Garden.nearGrey c) := by
  unfold Garden.nearGrey; infer_instance

/-- A stream of `Math.random()` values whose first colour attempt is near-grey
(`r = 128`, `g = b = 127`) and whose later samples are all `1/2`. -/
def greyFirstStream (n : ℕ) : ℚ :=
  if n = 0 then 0 else if n < 3 then 99 / 100 else 1 / 2

/-- The invariant of a run of `startHeartAnimation` after `n` callbacks: `createRandomBloom`
was requested for exactly the accepted points, and every accepted point `q` was accepted by
some callback `k < n` in whose surroundings `q` is inside the canvas and at least
`maxR * 1.3` away from every point accepted before it. -/
def LoveApp.HeartInv {α : Type} [LinearOrderedField α] (sqrt : α → α) (env : ℕ → HeartEnv α)
    (n : ℕ) (s : HeartRun α) : Prop :=
  s.requested = s.heart ∧
  ∀ (j : ℕ) (q : α × α), s.heart[j]? = some q →
    ∃ k, k < n ∧
      (0 ≤ q.1 ∧ q.1 ≤ (env k).width ∧ 0 ≤ q.2 ∧ q.2 ≤ (env k).height) ∧
      ∀ (i : ℕ) (p : α × α), i < j → s.heart[i]? = some p →
        (env k).maxR * (13 / 10) ≤ sqrt ((p.1 - q.1) ^ 2 + (p.2 - q.2) ^ 2)

/-- `calls` is a run of `Bloom.draw` invocations that takes `garden.blooms` from `bl` to
`bl1`: each call is `Bloom.draw` on a registered Bloom, and `garden.blooms` is not changed
between one call and the next. -/
def DrawChain : List ℕ → List DrawCall → List ℕ → Prop
  | bl, [], bl1 => bl = bl1
  | bl, c :: cs, bl1 =>
    c.before.blooms = bl ∧ c.this ∈ bl ∧ c.after = Bloom.draw c.before c.this ∧
      DrawChain c.after.blooms cs bl1

/-- A `Bloom.draw` invocation whose `removeBloom` spliced `garden.blooms`. -/
def DrawCall.removes (c : DrawCall) : Prop :=
  c.after.blooms ≠ c.before.blooms

instance (c : DrawCall) : Decidable c.removes := by
  unfold DrawCall.removes; infer_instance

/-- The stream of `Math.random()` values that are all `1/2`. -/
def halfStream (_ : ℕ) : ℚ :=
  1 / 2

/-- A fresh garden on the 670x625 canvas of a desktop viewport. -/
def freshGarden : Garden :=
  (Garden.new 1024 Garden.options ⟨670, 625⟩).1

/-- The fresh garden after `createRandomBloom(335, 312)` with all samples `1/2`: one Bloom
of radius 9 with 12 petals of `growFactor` 11/20. -/
def oneBloomGarden : Garden :=
  ((Garden.createRandomBloom 1 Garden.options 1024 halfStream 0 freshGarden 335 312).map
    Prod.fst).getD freshGarden

/-- The times `17, 34, ..., 17 * n` of `n` render calls that each draw a frame. -/
def frameTimes (n : ℕ) : List ℚ :=
  (List.range n).map (fun i => 17 * ((i : ℚ) + 1))

/-- The garden `oneBloomGarden` after 15 frames, followed by `createRandomBloom(100, 100)`:
the first Bloom is about to finish, the second is new. -/
def twoBloomGarden : Garden :=
  ((Garden.createRandomBloom 1 Garden.options 1024 halfStream 0
      (oneBloomGarden.renders (frameTimes 15)).1 100 100).map Prod.fst).getD
    (oneBloomGarden.renders (frameTimes 15)).1

/-- The stream of `Math.random()` values that are all `0`. -/
def zeroStream (_ : ℕ) : ℚ :=
  0

/-- The times `16, 32, ..., 16 * n` of `n` render calls at 16 ms spacing. -/
def tickTimes (n : ℕ) : List ℚ :=
  (List.range n).map (fun i => 16 * ((i : ℚ) + 1))

/-- The times of `n` pairs of render calls at 16 ms spacing, from `32 * k + 16` on. -/
def pairTimes : ℕ → ℕ → List ℚ
  | _, 0 => []
  | k, n + 1 => (32 * (k : ℚ) + 16) :: (32 * (k : ℚ) + 32) :: pairTimes (k + 1) n

/-- `Petal.draw` with the rounding of doubles: `fl x` stands for the double that the
machine stores for the exact result `x`; nothing is assumed of `fl`. -/
def Petal.drawFl (fl : ℚ → ℚ) (p : Petal) : Petal :=
  if p.opacity < p.maxOpacity then
    { p with opacity := fl (p.opacity + fl (p.maxOpacity / 20)) }
  else p

/-- `Petal.render` (garden.js 94-101) with the rounding of doubles: `this.r += this.growFactor`
stores `fl (r + growFactor)`. -/
def Petal.renderFl (fl : ℚ → ℚ) (bloomR : ℚ) (p : Petal) : Petal × Bool :=
  if p.r ≤ bloomR then
    (Petal.drawFl fl { p with r := fl (p.r + p.growFactor) }, true)
  else
    ({ p with isfinished := true }, false)

/-- The petal loop of `Bloom.draw` (garden.js 129-133) with the rounding of doubles. -/
def Bloom.renderPetalsFl (fl : ℚ → ℚ) (bloomR : ℚ) : List Petal → Bool → List Petal × Bool
  | [], isfinished => ([], isfinished)
  | p :: ps, isfinished =>
    let p1 := (Petal.renderFl fl bloomR p).1
    let rest := Bloom.renderPetalsFl fl bloomR ps (isfinished && p1.isfinished)
    (p1 :: rest.1, rest.2)

/-- `Bloom.draw` (garden.js 118-140) with the rounding of doubles. -/
def Bloom.drawFl (fl : ℚ → ℚ) (g : Garden) (this : ℕ) : Garden :=
  let b := g.store this
  let scale := if b.scale < b.maxScale then fl (b.scale + 2 / 100) else b.scale
  let rendered := Bloom.renderPetalsFl fl b.r b.petals true
  let g1 : Garden :=
    { g with store := Function.update g.store this { b with scale := scale, petals := rendered.1 } }
  if rendered.2 then g1.removeBloom this else g1

/-- The loop of `Garden.render` (garden.js 203-205) with the rounding of doubles. -/
def Garden.renderLoopFl (fl : ℚ → ℚ) : ℕ → ℕ → Garden → Garden × List DrawCall
  | 0, _, g => (g, [])
  | fuel + 1, i, g =>
    if i < g.blooms.length then
      let this := g.blooms.getD i 0
      let g1 := Bloom.drawFl fl g this
      let rest := Garden.renderLoopFl fl fuel (i + 1) g1
      (rest.1, ⟨this, g, g1⟩ :: rest.2)
    else (g, [])

/-- `Garden.render(currentTime)` (garden.js 199-209) with the rounding of doubles in the
drawing; the times of the calls and `lastTime` are whole numbers of milliseconds here, whose
difference is exact in doubles. -/
def Garden.renderFl (fl : ℚ → ℚ) (g : Garden) (currentTime : ℚ) : Garden × List DrawCall :=
  if currentTime - g.lastTime ≥ g.frameInterval then
    let looped := Garden.renderLoopFl fl g.blooms.length 0 g
    ({ looped.1 with lastTime := currentTime }, looped.2)
  else (g, [])

/-- A sequence of `Garden.render` calls with the rounding of doubles. -/
def Garden.rendersFl (fl : ℚ → ℚ) (g : Garden) : List ℚ → Garden × List DrawCall
  | [] => (g, [])
  | t :: ts =>
    let first := g.renderFl fl t
    let rest := Garden.rendersFl fl first.1 ts
    (rest.1, first.2 ++ rest.2)

/-- `n` successive `Petal.render` calls with the rounding of doubles. -/
def Petal.renderFlN (fl : ℚ → ℚ) (bloomR : ℚ) : ℕ → Petal → Petal
  | 0, p => p
  | n + 1, p => (Petal.renderFl fl bloomR (Petal.renderFlN fl bloomR n p)).1

/-- The radius of a petal that started at `r = 1` and grew `n` times:
`1 + growFactor + ... + growFactor` as the doubles of `this.r += this.growFactor` add it up. -/
def Petal.growFl (fl : ℚ → ℚ) (growFactor : ℚ) : ℕ → ℚ
  | 0 => 1
  | n + 1 => fl (Petal.growFl fl growFactor n + growFactor)

/-- The state of a garden that was created with the single Bloom `b` (radius `R`, petals
`ps0`) after `k` frames drawn at the times `32, 64, ..., 32 * k`: either the Bloom is
registered, its petals were rendered `k` times and (for `k > 0`) are not all finished, or
it is not registered, its petals were rendered `j <= k` times and are all finished.  The
frame interval is between 16 and 32 ms, as `1000 / 60` and its double are. -/
def SoloInv (fl : ℚ → ℚ) (b : ℕ) (R : ℚ) (ps0 : List Petal) (k : ℕ) (g : Garden) : Prop :=
  16 < g.frameInterval ∧ g.frameInterval ≤ 32 ∧ g.lastTime = 32 * (k : ℚ) ∧
  ((g.blooms = [b] ∧ (g.store b).r = R ∧
      (g.store b).petals = ps0.map (Petal.renderFlN fl R k) ∧
      (k = 0 ∨ ¬ ∀ p ∈ (g.store b).petals, p.isfinished = true)) ∨
    (g.blooms = [] ∧ (∃ j, j ≤ k ∧ (g.store b).petals = ps0.map (Petal.renderFlN fl R j)) ∧
      ∀ p ∈ (g.store b).petals, p.isfinished = true))

/-- The scenario of the spec with all samples `0`: the garden built by the constructor on
the 670x625 canvas of a desktop viewport, after `createRandomBloom(335, 312)`; the Bloom has
radius 8 and 8 petals of `growFactor` 1/10. -/
def slowBloomGarden : Garden :=
  ((Garden.createRandomBloom 1 (Garden.new 1024 Garden.options ⟨670, 625⟩).2 1024 zeroStream 0
    freshGarden 335 312).map Prod.fst).getD freshGarden

/-- `Garden.resize` (garden.js 250-255): the canvas takes the size of `rect`, the value of
`element.getBoundingClientRect()`, and `setupResponsive` is run on `Garden.options` with
`innerWidth` being `window.innerWidth`. -/
def Garden.resize (rect : Canvas) (innerWidth : ℚ) (o : Options) (g : Garden) :
    Garden × Options :=
  ({ g with element := { width := rect.width, height := rect.height } },
   Garden.setupResponsive innerWidth o)

/-- `n` successive `Bloom.draw` calls on the Bloom at reference `this`. -/
def Bloom.drawN : ℕ → Garden → ℕ → Garden
  | 0, g, _ => g
  | n + 1, g, this => Bloom.draw (Bloom.drawN n g this) this

/-- `garden.render()` as `LoveApp.startRenderLoop` calls it (functions.js 141-149): without
an argument, so that the parameter `currentTime` takes its default value `0`
(garden.js 199). -/
def Garden.renderNoArg (g : Garden) : Garden × List DrawCall :=
  g.render 0

/-- What happens to a garden driven by `LoveApp`: a firing of the render loop, or a
`createRandomBloom(x, y)` call (pointer event or heart seeding) whose colour sampling has
the recursion bound `fuel`. -/
inductive GardenEvent where
  | frame : GardenEvent
  | create (x y : ℚ) (fuel : ℕ) : GardenEvent

/-- The garden, the cursor of the `Math.random()` stream and the `Bloom.draw` invocations
made, after a sequence of events.  A `createRandomBloom` whose colour sampling does not
return leaves the garden as it was (the Bloom is constructed after the sampling). -/
def LoveApp.drive (o : Options) (innerWidth : ℚ) (rnd : ℕ → ℚ) :
    Garden × ℕ → List GardenEvent → (Garden × ℕ) × List DrawCall
  | st, [] => (st, [])
  | st, GardenEvent.frame :: es =>
    let rendered := st.1.renderNoArg
    let rest := LoveApp.drive o innerWidth rnd (rendered.1, st.2) es
    (rest.1, rendered.2 ++ rest.2)
  | st, GardenEvent.create x y fuel :: es =>
    match Garden.createRandomBloom fuel o innerWidth rnd st.2 st.1 x y with
    | none => LoveApp.drive o innerWidth rnd st es
    | some st1 => LoveApp.drive o innerWidth rnd st1 es

/-- The stream of `Math.random()` values that are all `99/100`. -/
def lateStream (_ : ℕ) : ℚ :=
  99 / 100

/-- The state of a garden that never drew a frame: `lastTime` is still 0, every Bloom ever
allocated is still registered, in order of creation, and every petal is as the constructor
left it. -/
def Garden.Untouched (g : Garden) : Prop :=
  g.lastTime = 0 ∧ g.frameInterval = 1000 / 60 ∧ g.blooms = List.range g.nextRef ∧
  ∀ b ∈ g.blooms, ∀ p ∈ (g.store b).petals, p.r = 1 ∧ p.isfinished = false ∧ p.opacity = 0

/-! ## Lemmas: Petal -/

theorem Petal.draw_r (p : Petal) : (Petal.draw p).r = p.r := by
  unfold Petal.draw; split <;> rfl

theorem Petal.draw_isfinished (p : Petal) : (Petal.draw p).isfinished = p.isfinished := by
  unfold Petal.draw; split <;> rfl

theorem Petal.draw_growFactor (p : Petal) : (Petal.draw p).growFactor = p.growFactor := by
  unfold Petal.draw; split <;> rfl

theorem Petal.render_growFactor (R : ℚ) (p : Petal) :
    (Petal.render R p).1.growFactor = p.growFactor := by
  unfold Petal.render; split
  · simp [Petal.draw_growFactor]
  · rfl

theorem Petal.renderN_growFactor (R : ℚ) (n : ℕ) (p : Petal) :
    (Petal.renderN R n p).growFactor = p.growFactor := by
  induction n with
  | zero => rfl
  | succ n ih => simp [Petal.renderN, Petal.render_growFactor, ih]

/-- A render call never lowers `r` when `growFactor` is non-negative. -/
theorem Petal.render_r_mono (R : ℚ) (p : Petal) (hg : 0 ≤ p.growFactor) :
    p.r ≤ (Petal.render R p).1.r := by
  unfold Petal.render; split
  · simp [Petal.draw_r, hg]
  · simp

/-- A render call on a petal with `r > bloom.r` changes nothing but the flag, and does not
draw. -/
theorem Petal.render_of_gt (R : ℚ) (p : Petal) (h : R < p.r) :
    Petal.render R p = ({ p with isfinished := true }, false) := by
  unfold Petal.render; rw [if_neg (not_le.mpr h)]

/-- The invariant of a petal: once `isfinished` is set, `r` is above the bloom radius. -/
theorem Petal.render_inv (R : ℚ) (p : Petal) (h : p.isfinished = true → R < p.r) :
    (Petal.render R p).1.isfinished = true → R < (Petal.render R p).1.r := by
  intro hf
  by_cases hr : p.r ≤ R
  · have e : Petal.render R p = (Petal.draw { p with r := p.r + p.growFactor }, true) := by
      unfold Petal.render; rw [if_pos hr]
    rw [e] at hf ⊢
    simp only [Petal.draw_isfinished, Petal.draw_r] at hf ⊢
    have := h hf
    linarith
  · rw [Petal.render_of_gt R p (not_le.mp hr)]
    exact not_le.mp hr

theorem Petal.renderN_inv (R : ℚ) (p : Petal) (h : p.isfinished = true → R < p.r) (n : ℕ) :
    (Petal.renderN R n p).isfinished = true → R < (Petal.renderN R n p).r := by
  induction n with
  | zero => exact h
  | succ n ih =>
    exact Petal.render_inv R _ ih

theorem Petal.renderN_add (R : ℚ) (n m : ℕ) (p : Petal) :
    Petal.renderN R (n + m) p = Petal.renderN R m (Petal.renderN R n p) := by
  induction m with
  | zero => rfl
  | succ m ih => simp [← Nat.add_assoc, Petal.renderN, ih]

/-- A finished petal with `r` above the bloom radius is a fixed point of `render`. -/
theorem Petal.renderN_fixed (R : ℚ) (p : Petal) (hf : p.isfinished = true) (hr : R < p.r)
    (m : ℕ) : Petal.renderN R m p = p := by
  induction m with
  | zero => rfl
  | succ m ih =>
    simp only [Petal.renderN, ih, Petal.render_of_gt R p hr]
    cases p; simp_all

/-! ## Claims -/

/-- C2: for a petal built by the constructor with a non-negative `growFactor`, rendered
again and again against the same bloom radius, `r` never decreases from one `render` call
to the next; and once `isfinished` is true after some call, every later `render` call
returns the petal unchanged (so `r`, `opacity` and `isfinished` keep their values and
`isfinished` stays true) and does not invoke `draw`. -/
theorem petal_render_monotone_then_frozen (o : Options) (stretchA stretchB startAngle angle
    growFactor bloomR : ℚ) (hg : 0 ≤ growFactor) :
    (∀ n, (Petal.renderN bloomR n
        (Petal.new o stretchA stretchB startAngle angle growFactor)).r ≤
      (Petal.renderN bloomR (n + 1)
        (Petal.new o stretchA stretchB startAngle angle growFactor)).r) ∧
    (∀ n, (Petal.renderN bloomR n
        (Petal.new o stretchA stretchB startAngle angle growFactor)).isfinished = true →
      ∀ m, n ≤ m →
        Petal.render bloomR (Petal.renderN bloomR m
            (Petal.new o stretchA stretchB startAngle angle growFactor)) =
          (Petal.renderN bloomR n
            (Petal.new o stretchA stretchB startAngle angle growFactor), false)) := by
  set p0 := Petal.new o stretchA stretchB startAngle angle growFactor with hp0
  have hg0 : 0 ≤ p0.growFactor := hg
  have h0 : p0.isfinished = true → bloomR < p0.r := by intro h; simp [hp0, Petal.new] at h
  refine ⟨fun n => ?_, fun n hf m hnm => ?_⟩
  · exact Petal.render_r_mono bloomR _ (by rw [Petal.renderN_growFactor]; exact hg0)
  · have hr := Petal.renderN_inv bloomR p0 h0 n hf
    obtain ⟨d, rfl⟩ := Nat.exists_eq_add_of_le hnm
    rw [Petal.renderN_add, Petal.renderN_fixed bloomR _ hf hr d, Petal.render_of_gt bloomR _ hr]
    congr 1
    cases h : Petal.renderN bloomR n p0
    rw [h] at hf
    simp_all

/-- C2 at a concrete petal: `growFactor = 1/2`, bloom radius `2`; the petal is finished
after four calls and the sixth call leaves it as it was. -/
theorem petal_render_monotone_then_frozen_witness :
    (Petal.renderN 2 4 (Petal.new Garden.options 1 1 0 45 (1 / 2))).isfinished = true ∧
    Petal.render 2 (Petal.renderN 2 5 (Petal.new Garden.options 1 1 0 45 (1 / 2))) =
      (Petal.renderN 2 4 (Petal.new Garden.options 1 1 0 45 (1 / 2)), false) :=
  have h : (Petal.renderN 2 4 (Petal.new Garden.options 1 1 0 45 (1 / 2))).isfinished = true := by
    decide!
  ⟨h, (petal_render_monotone_then_frozen Garden.options 1 1 0 45 (1 / 2) 2 (by norm_num)).2 4 h 5
    (by norm_num)⟩

/-- C4: `Garden.render(currentTime)` is a no-op (same garden: `lastTime`, `blooms` and every
stored Bloom and Petal unchanged, no `Bloom.draw` invoked) when
`currentTime - lastTime < frameInterval`, and sets `lastTime = currentTime` when
`currentTime - lastTime >= frameInterval`; the constructor sets `frameInterval` to
`1000 / 60` and `lastTime` to `0`. -/
theorem render_frame_gate (g : Garden) (currentTime : ℚ) :
    (currentTime - g.lastTime < g.frameInterval → g.render currentTime = (g, [])) ∧
    (currentTime - g.lastTime ≥ g.frameInterval →
      (g.render currentTime).1.lastTime = currentTime) ∧
    (∀ innerWidth o element, (Garden.new innerWidth o element).1.frameInterval = 1000 / 60 ∧
      (Garden.new innerWidth o element).1.lastTime = 0) := by
  refine ⟨fun h => ?_, fun h => ?_, fun _ _ _ => ⟨rfl, rfl⟩⟩
  · unfold Garden.render; rw [if_neg (not_le.mpr h)]
  · unfold Garden.render; rw [if_pos h]

/-- C4 on a fresh garden: a call at 16 ms is dropped, a call at 17 ms sets `lastTime`. -/
theorem render_frame_gate_witness :
    (Garden.new 1024 Garden.options ⟨670, 625⟩).1.render 16 =
      ((Garden.new 1024 Garden.options ⟨670, 625⟩).1, []) ∧
    ((Garden.new 1024 Garden.options ⟨670, 625⟩).1.render 17).1.lastTime = 17 :=
  ⟨(render_frame_gate (Garden.new 1024 Garden.options ⟨670, 625⟩).1 16).1
      (by norm_num [Garden.new]),
   (render_frame_gate (Garden.new 1024 Garden.options ⟨670, 625⟩).1 17).2.1
      (by norm_num [Garden.new])⟩

/-- C8: `Garden.setupResponsive` sets the density parameters by breakpoint of the viewport
width `w`: `w <= 480` gives density 5, bloomRadius [4,6], petalCount [6,10];
`480 < w <= 768` gives density 7, bloomRadius [6,8], petalCount [7,12]; `w > 768` gives
density 10, bloomRadius [8,10], petalCount [8,15]; width 400 gives the mobile values and
width 1024 the desktop values; and the density parameters (with the opacity) after the call
are the same whatever `Garden.options` held before. -/
theorem setupResponsive_breakpoints (w : ℚ) (o : Options) :
    (w ≤ 480 → (Garden.setupResponsive w o).density = 5 ∧
      (Garden.setupResponsive w o).bloomRadius = ⟨4, 6⟩ ∧
      (Garden.setupResponsive w o).petalCount = ⟨6, 10⟩) ∧
    (480 < w → w ≤ 768 → (Garden.setupResponsive w o).density = 7 ∧
      (Garden.setupResponsive w o).bloomRadius = ⟨6, 8⟩ ∧
      (Garden.setupResponsive w o).petalCount = ⟨7, 12⟩) ∧
    (768 < w → (Garden.setupResponsive w o).density = 10 ∧
      (Garden.setupResponsive w o).bloomRadius = ⟨8, 10⟩ ∧
      (Garden.setupResponsive w o).petalCount = ⟨8, 15⟩) ∧
    ((Garden.setupResponsive 400 o).density = 5 ∧
      (Garden.setupResponsive 400 o).bloomRadius = ⟨4, 6⟩ ∧
      (Garden.setupResponsive 400 o).petalCount = ⟨6, 10⟩) ∧
    ((Garden.setupResponsive 1024 o).density = 10 ∧
      (Garden.setupResponsive 1024 o).bloomRadius = ⟨8, 10⟩ ∧
      (Garden.setupResponsive 1024 o).petalCount = ⟨8, 15⟩) ∧
    (∀ o2 : Options, (Garden.setupResponsive w o).density = (Garden.setupResponsive w o2).density ∧
      (Garden.setupResponsive w o).bloomRadius = (Garden.setupResponsive w o2).bloomRadius ∧
      (Garden.setupResponsive w o).petalCount = (Garden.setupResponsive w o2).petalCount ∧
      (Garden.setupResponsive w o).color.opacity =
        (Garden.setupResponsive w o2).color.opacity) := by
  refine ⟨fun h => ?_, fun h1 h2 => ?_, fun h => ?_, ?_, ?_, fun o2 => ?_⟩
  · simp [Garden.setupResponsive, h]
  · simp [Garden.setupResponsive, not_le.mpr h1, h2]
  · have h1 : ¬ w ≤ 480 := by linarith
    simp [Garden.setupResponsive, not_le.mpr h, h1]
  · norm_num [Garden.setupResponsive]
  · norm_num [Garden.setupResponsive]
  · unfold Garden.setupResponsive
    by_cases h1 : w ≤ 480
    · simp [h1]
    · by_cases h2 : w ≤ 768 <;> simp [h1, h2]

/-- C8 at a tablet width: 600 gives density 7, bloomRadius [6,8], petalCount [7,12]. -/
theorem setupResponsive_breakpoints_witness :
    (Garden.setupResponsive 600 Garden.options).density = 7 ∧
    (Garden.setupResponsive 600 Garden.options).bloomRadius = ⟨6, 8⟩ ∧
    (Garden.setupResponsive 600 Garden.options).petalCount = ⟨7, 12⟩ :=
  (setupResponsive_breakpoints 600 Garden.options).2.1 (by norm_num) (by norm_num)

/-- C10: over the reals, with `Math.cos`, `Math.sin`, `Math.sqrt` being the real cosine,
sine and square root, `rotate(theta)` returns the receiver (the same reference), stores the
rotated coordinates in it, leaves every other Vector alone, and the length of the returned
Vector equals the length of the receiver before the call. -/
theorem rotate_preserves_length (σ : ℕ → Vector ℝ) (this : ℕ) (theta : ℝ) :
    (Vector.rotate Real.cos Real.sin σ this theta).2 = this ∧
    (Vector.rotate Real.cos Real.sin σ this theta).1 this =
      ⟨Real.cos theta * (σ this).x - Real.sin theta * (σ this).y,
       Real.sin theta * (σ this).x + Real.cos theta * (σ this).y⟩ ∧
    (∀ other, other ≠ this → (Vector.rotate Real.cos Real.sin σ this theta).1 other = σ other) ∧
    Vector.length Real.sqrt ((Vector.rotate Real.cos Real.sin σ this theta).1
        (Vector.rotate Real.cos Real.sin σ this theta).2) =
      Vector.length Real.sqrt (σ this) := by
  refine ⟨rfl, by simp [Vector.rotate], fun other h => by simp [Vector.rotate, h], ?_⟩
  simp only [Vector.rotate, Vector.length, Function.update_same]
  congr 1
  have h := Real.cos_sq_add_sin_sq theta
  nlinarith [h, sq_nonneg (σ this).x, sq_nonneg (σ this).y]

/-! ## Lemmas: colour sampling -/

theorem Garden.randomrgba_succ (fuel : ℕ) (rnd : ℕ → ℚ) (k : ℕ)
    (rmin rmax gmin gmax bmin bmax a : ℚ) :
    Garden.randomrgba (fuel + 1) rnd k rmin rmax gmin gmax bmin bmax a =
      if Garden.nearGrey (Garden.channels rnd k rmin rmax gmin gmax bmin bmax) then
        Garden.randomrgba fuel rnd (k + 3) rmin rmax gmin gmax bmin bmax a
      else
        some (Garden.rgba (Garden.channels rnd k rmin rmax gmin gmax bmin bmax).1
          (Garden.channels rnd k rmin rmax gmin gmax bmin bmax).2.1
          (Garden.channels rnd k rmin rmax gmin gmax bmin bmax).2.2 a, k + 3) := by
  simp only [Garden.randomrgba, Garden.nearGrey, Garden.channels]

/-- What `Garden.randomrgba` returns: the channels of the first attempt that is not
near-grey. -/
theorem Garden.randomrgba_some (fuel : ℕ) (rnd : ℕ → ℚ) (k : ℕ)
    (rmin rmax gmin gmax bmin bmax a : ℚ) (c : Rgba) (k1 : ℕ)
    (h : Garden.randomrgba fuel rnd k rmin rmax gmin gmax bmin bmax a = some (c, k1)) :
    ∃ j, j < fuel ∧
      (∀ i, i < j →
        Garden.nearGrey (Garden.channels rnd (k + 3 * i) rmin rmax gmin gmax bmin bmax)) ∧
      ¬ Garden.nearGrey (Garden.channels rnd (k + 3 * j) rmin rmax gmin gmax bmin bmax) ∧
      c = Garden.rgba (Garden.channels rnd (k + 3 * j) rmin rmax gmin gmax bmin bmax).1
        (Garden.channels rnd (k + 3 * j) rmin rmax gmin gmax bmin bmax).2.1
        (Garden.channels rnd (k + 3 * j) rmin rmax gmin gmax bmin bmax).2.2 a ∧
      k1 = k + 3 * j + 3 := by
  induction fuel generalizing k with
  | zero => simp [Garden.randomrgba] at h
  | succ fuel ih =>
    rw [Garden.randomrgba_succ] at h
    by_cases hg : Garden.nearGrey (Garden.channels rnd k rmin rmax gmin gmax bmin bmax)
    · rw [if_pos hg] at h
      obtain ⟨j, hj, hall, hnot, hc, hk⟩ := ih (k + 3) h
      refine ⟨j + 1, by omega, ?_, ?_, ?_, ?_⟩
      · intro i hi
        cases i with
        | zero => simpa using hg
        | succ i =>
          have := hall i (by omega)
          rwa [show k + 3 * (i + 1) = k + 3 + 3 * i by ring]
      · rwa [show k + 3 * (j + 1) = k + 3 + 3 * j by ring]
      · rw [show k + 3 * (j + 1) = k + 3 + 3 * j by ring]; exact hc
      · omega
    · rw [if_neg hg] at h
      simp only [Option.some.injEq, Prod.mk.injEq] at h
      exact ⟨0, by omega, by intro i hi; omega, by simpa using hg, by simpa using h.1.symm,
        by omega⟩

/-- `Garden.randomrgba` returns as soon as the recursion bound exceeds the index of the
first attempt that is not near-grey. -/
theorem Garden.randomrgba_returns (rnd : ℕ → ℚ) (rmin rmax gmin gmax bmin bmax a : ℚ)
    (j : ℕ) (k : ℕ)
    (hall : ∀ i, i < j →
      Garden.nearGrey (Garden.channels rnd (k + 3 * i) rmin rmax gmin gmax bmin bmax))
    (hnot : ¬ Garden.nearGrey (Garden.channels rnd (k + 3 * j) rmin rmax gmin gmax bmin bmax))
    (fuel : ℕ) (hf : j < fuel) :
    Garden.randomrgba fuel rnd k rmin rmax gmin gmax bmin bmax a =
      some (Garden.rgba (Garden.channels rnd (k + 3 * j) rmin rmax gmin gmax bmin bmax).1
        (Garden.channels rnd (k + 3 * j) rmin rmax gmin gmax bmin bmax).2.1
        (Garden.channels rnd (k + 3 * j) rmin rmax gmin gmax bmin bmax).2.2 a,
        k + 3 * j + 3) := by
  induction j generalizing k fuel with
  | zero =>
    obtain ⟨f, rfl⟩ : ∃ f, fuel = f + 1 := ⟨fuel - 1, by omega⟩
    rw [Garden.randomrgba_succ, if_neg (by simpa using hnot)]
    simp
  | succ j ih =>
    obtain ⟨f, rfl⟩ : ∃ f, fuel = f + 1 := ⟨fuel - 1, by omega⟩
    have h0 := hall 0 (by omega)
    rw [Garden.randomrgba_succ, if_pos (by simpa using h0)]
    have := ih (k + 3)
      (fun i hi => by
        have := hall (i + 1) (by omega)
        rwa [show k + 3 * (i + 1) = k + 3 + 3 * i by ring] at this)
      (by rwa [show k + 3 * (j + 1) = k + 3 + 3 * j by ring] at hnot) f (by omega)
    rw [this]
    simp only [show k + 3 * (j + 1) = k + 3 + 3 * j by ring]

/-- If some attempt is not near-grey, `Garden.randomrgba` returns for every large enough
recursion bound. -/
theorem Garden.randomrgba_terminates (rnd : ℕ → ℚ) (rmin rmax gmin gmax bmin bmax a : ℚ)
    (k : ℕ)
    (h : ∃ j, ¬ Garden.nearGrey (Garden.channels rnd (k + 3 * j) rmin rmax gmin gmax bmin bmax)) :
    ∃ fuel0, ∀ fuel, fuel0 ≤ fuel →
      (Garden.randomrgba fuel rnd k rmin rmax gmin gmax bmin bmax a).isSome = true := by
  classical
  refine ⟨Nat.find h + 1, fun fuel hf => ?_⟩
  rw [Garden.randomrgba_returns rnd rmin rmax gmin gmax bmin bmax a (Nat.find h) k
    (fun i hi => not_not.mp (Nat.find_min h hi)) (Nat.find_spec h) fuel (by omega)]
  rfl

/-! ## Claims: colour sampling -/

/-- C6: whenever `Garden.randomrgba` returns a colour `rgba(r,g,b,a)`, that colour does not
have all three of `|r-g| <= 5`, `|g-b| <= 5`, `|b-r| <= 5`, and `r`, `g`, `b` are the
rounded samples of their own ranges taken in one attempt (the `j`-th, reading the samples
`k+3j`, `k+3j+1`, `k+3j+2`), `a` being the alpha passed in; and it does return, for every
large enough recursion bound, as soon as some attempt is not near-grey. -/
theorem randomrgba_not_near_grey (rnd : ℕ → ℚ) (k : ℕ) (rmin rmax gmin gmax bmin bmax a : ℚ) :
    (∀ fuel c k1,
      Garden.randomrgba fuel rnd k rmin rmax gmin gmax bmin bmax a = some (c, k1) →
      ¬ (|c.r - c.g| ≤ 5 ∧ |c.g - c.b| ≤ 5 ∧ |c.b - c.r| ≤ 5) ∧
      ∃ j, k1 = k + 3 * j + 3 ∧
        c.r = Math.round (Garden.random (rnd (k + 3 * j)) rmin rmax) ∧
        c.g = Math.round (Garden.random (rnd (k + 3 * j + 1)) gmin gmax) ∧
        c.b = Math.round (Garden.random (rnd (k + 3 * j + 2)) bmin bmax) ∧
        c.a = a) ∧
    ((∃ j, ¬ Garden.nearGrey (Garden.channels rnd (k + 3 * j) rmin rmax gmin gmax bmin bmax)) →
      ∃ fuel0, ∀ fuel, fuel0 ≤ fuel →
        (Garden.randomrgba fuel rnd k rmin rmax gmin gmax bmin bmax a).isSome = true) := by
  refine ⟨fun fuel c k1 h => ?_, Garden.randomrgba_terminates rnd rmin rmax gmin gmax bmin bmax a k⟩
  obtain ⟨j, _, _, hnot, hc, hk⟩ := Garden.randomrgba_some fuel rnd k rmin rmax gmin gmax bmin bmax a c k1 h
  subst hc
  exact ⟨hnot, j, hk, rfl, rfl, rfl, rfl⟩

/-- C6 on a stream whose first attempt `(128, 127, 127)` is rejected: the second attempt
`(192, 64, 64)` is returned. -/
theorem randomrgba_not_near_grey_witness :
    ¬ (|(192 : ℤ) - 64| ≤ 5 ∧ |(64 : ℤ) - 64| ≤ 5 ∧ |(64 : ℤ) - 192| ≤ 5) :=
  ((randomrgba_not_near_grey greyFirstStream 0 128 255 0 128 0 128 (1 / 10)).1 2
    ⟨192, 64, 64, 1 / 10⟩ 6 (by decide!)).1

/-! ## Lemmas: heart seeding -/

theorem LoveApp.tooClose_eq_false {α : Type} [LinearOrderedField α] (sqrt : α → α) (maxR : α) (bloom : α × α)
    (heart : List (α × α)) :
    LoveApp.tooClose sqrt maxR bloom heart = false ↔
      ∀ p ∈ heart, maxR * (13 / 10) ≤ sqrt ((p.1 - bloom.1) ^ 2 + (p.2 - bloom.2) ^ 2) := by
  induction heart with
  | nil => simp [LoveApp.tooClose]
  | cons p ps ih =>
    simp only [LoveApp.tooClose, List.mem_cons, forall_eq_or_imp]
    by_cases h : sqrt ((p.1 - bloom.1) ^ 2 + (p.2 - bloom.2) ^ 2) < maxR * (13 / 10)
    · simp [h]
    · simp only [h, if_false, ih]
      exact ⟨fun hps => ⟨not_lt.mp h, hps⟩, fun hps => hps.2⟩

theorem LoveApp.heartTick_inv {α : Type} [LinearOrderedField α] (fl sqrt : α → α)
    (env : ℕ → HeartEnv α) (n : ℕ) (s : HeartRun α) (h : LoveApp.HeartInv sqrt env n s) :
    LoveApp.HeartInv sqrt env (n + 1) (LoveApp.heartTick fl sqrt (env n) s) := by
  have weaken : ∀ s1 : HeartRun α, LoveApp.HeartInv sqrt env n s1 →
      LoveApp.HeartInv sqrt env (n + 1) s1 := by
    intro s1 h1
    refine ⟨h1.1, fun j q hq => ?_⟩
    obtain ⟨k, hk, hrest⟩ := h1.2 j q hq
    exact ⟨k, by omega, hrest⟩
  have key : ∀ s1 : HeartRun α, LoveApp.HeartInv sqrt env (n + 1) s1 →
      LoveApp.HeartInv sqrt env (n + 1)
        (if s1.angle ≥ 30 then { s1 with running := false }
         else { s1 with angle := fl (s1.angle + 2 / 10) }) := by
    intro s1 h1
    split <;> exact h1
  unfold LoveApp.heartTick
  by_cases hrun : s.running = true
  · simp only [hrun, if_true]
    apply key
    split
    · rename_i hd
      simp only [Bool.and_eq_true, Bool.not_eq_true', Bool.or_eq_false_iff,
        decide_eq_false_iff_not, not_lt] at hd
      obtain ⟨⟨⟨⟨⟨hx0, hxw⟩, hy0⟩, hyh⟩, hclose⟩, _⟩ := hd
      rw [LoveApp.tooClose_eq_false] at hclose
      obtain ⟨hr, hacc⟩ := h
      refine ⟨by simp [hr], fun j q hq => ?_⟩
      simp only at hq
      by_cases hj : j < s.heart.length
      · rw [List.getElem?_append_left hj] at hq
        obtain ⟨k, hk, hb, hd⟩ := hacc j q hq
        refine ⟨k, by omega, hb, fun i p hi hp => ?_⟩
        simp only at hp
        rw [List.getElem?_append_left (by omega)] at hp
        exact hd i p hi hp
      · rw [List.getElem?_append_right (not_lt.mp hj)] at hq
        have hj0 : j - s.heart.length = 0 := by
          by_contra hne
          rw [List.getElem?_eq_none (by simp; omega)] at hq
          exact Option.noConfusion hq
        rw [hj0] at hq
        simp only [List.getElem?_cons_zero, Option.some.injEq] at hq
        subst hq
        refine ⟨n, by omega, ⟨hx0, hxw, hy0, hyh⟩, fun i p hi hp => ?_⟩
        simp only at hp
        have hil : i < s.heart.length := by omega
        rw [List.getElem?_append_left hil] at hp
        exact hclose p (List.getElem?_mem hp)
    · exact weaken s h
  · simp only [hrun]
    exact weaken s h

theorem LoveApp.startHeartAnimation_inv {α : Type} [LinearOrderedField α] (fl sqrt : α → α)
    (env : ℕ → HeartEnv α) (n : ℕ) :
    LoveApp.HeartInv sqrt env n (LoveApp.startHeartAnimation fl sqrt env n) := by
  induction n with
  | zero => exact ⟨rfl, fun j q hq => by simp [LoveApp.startHeartAnimation] at hq⟩
  | succ n ih => exact LoveApp.heartTick_inv fl sqrt env n _ ih

/-- Over the reals, in any run (whatever the rounding of `angle += 0.2`, the surroundings of
each callback and the number of callbacks): `createRandomBloom` was requested for exactly the
accepted points, and every accepted point was inside the canvas that the callback accepting
it read, and at least 1.3 times the `bloomRadius.max` read by that callback away from every
point accepted before it. -/
theorem LoveApp.heart_points_when_accepted (fl : ℝ → ℝ) (env : ℕ → HeartEnv ℝ) (n : ℕ) :
    (LoveApp.startHeartAnimation fl Real.sqrt env n).requested =
      (LoveApp.startHeartAnimation fl Real.sqrt env n).heart ∧
    ∀ (j : ℕ) (q : ℝ × ℝ), (LoveApp.startHeartAnimation fl Real.sqrt env n).heart[j]? = some q →
      ∃ k, k < n ∧
        (0 ≤ q.1 ∧ q.1 ≤ (env k).width ∧ 0 ≤ q.2 ∧ q.2 ≤ (env k).height) ∧
        ∀ (i : ℕ) (p : ℝ × ℝ), i < j →
          (LoveApp.startHeartAnimation fl Real.sqrt env n).heart[i]? = some p →
          13 / 10 * (env k).maxR ≤ Real.sqrt ((p.1 - q.1) ^ 2 + (p.2 - q.2) ^ 2) := by
  obtain ⟨hr, hacc⟩ := LoveApp.startHeartAnimation_inv fl Real.sqrt env n
  refine ⟨hr, fun j q hq => ?_⟩
  obtain ⟨k, hk, hb, hd⟩ := hacc j q hq
  exact ⟨k, hk, hb, fun i p hi hp => by have := hd i p hi hp; linarith⟩

/-- The first interval of the timer accepts the point at angle 10 when it is inside the
canvas and the garden is set: the heart list does get points. -/
theorem LoveApp.startHeartAnimation_first {α : Type} [LinearOrderedField α]
    (fl sqrt : α → α) (env : ℕ → HeartEnv α) (hg : (env 0).hasGarden = true)
    (hx : 0 ≤ ((env 0).getHeartPoint 10).1) (hxw : ((env 0).getHeartPoint 10).1 ≤ (env 0).width)
    (hy : 0 ≤ ((env 0).getHeartPoint 10).2)
    (hyh : ((env 0).getHeartPoint 10).2 ≤ (env 0).height) :
    (LoveApp.startHeartAnimation fl sqrt env 1).heart = [(env 0).getHeartPoint 10] := by
  simp [LoveApp.startHeartAnimation, LoveApp.heartTick, LoveApp.tooClose, not_lt.mpr hx,
    not_lt.mpr hxw, not_lt.mpr hy, not_lt.mpr hyh, hg]
  split <;> rfl

/-! ## Claims: heart seeding -/

/-- C7 as stated fails when the window is resized during the run: after the first callback
accepted the point `(334.98, 596.97)` on the 670x625 canvas and requested
`createRandomBloom` for it, a resize makes the canvas 380x300; after the second callback the
heart list still holds that point, which is not inside the surface bounds
`0 <= x <= width`, `0 <= y <= height` any more. -/
theorem heart_point_outside_after_resize :
    (LoveApp.startHeartAnimation id Real.sqrt (resizedHeartEnv ℝ) 2).heart =
      [(33498 / 100, 59697 / 100)] ∧
    (LoveApp.startHeartAnimation id Real.sqrt (resizedHeartEnv ℝ) 2).requested =
      [(33498 / 100, 59697 / 100)] ∧
    (resizedHeartEnv ℝ 1).width = 380 ∧ (resizedHeartEnv ℝ 1).height = 300 ∧
    ¬ ∀ p ∈ (LoveApp.startHeartAnimation id Real.sqrt (resizedHeartEnv ℝ) 2).heart,
      0 ≤ p.1 ∧ p.1 ≤ (resizedHeartEnv ℝ 1).width ∧
      0 ≤ p.2 ∧ p.2 ≤ (resizedHeartEnv ℝ 1).height := by
  have h1 : (LoveApp.startHeartAnimation id Real.sqrt (resizedHeartEnv ℝ) 1) =
      { angle := 10 + 2 / 10, heart := [(33498 / 100, 59697 / 100)],
        requested := [(33498 / 100, 59697 / 100)], running := true } := by
    simp only [LoveApp.startHeartAnimation, LoveApp.heartTick, LoveApp.tooClose,
      resizedHeartEnv]
    norm_num
  have h2 : (LoveApp.startHeartAnimation id Real.sqrt (resizedHeartEnv ℝ) 2) =
      { angle := 10 + 2 / 10 + 2 / 10, heart := [(33498 / 100, 59697 / 100)],
        requested := [(33498 / 100, 59697 / 100)], running := true } := by
    rw [show (2 : ℕ) = 1 + 1 from rfl, LoveApp.startHeartAnimation, h1]
    simp only [LoveApp.heartTick, resizedHeartEnv]
    norm_num
  refine ⟨by rw [h2], by rw [h2], by simp [resizedHeartEnv], by simp [resizedHeartEnv], ?_⟩
  rw [h2]
  intro hall
  have := (hall (33498 / 100, 59697 / 100) (by simp)).2.2.2
  simp only [resizedHeartEnv] at this
  norm_num at this

/-- C7 amended: in every run of `startHeartAnimation` during which the surface size and
`Garden.options.bloomRadius.max` are not changed (every callback reads the same `width`,
`height` and `max`; whatever `getHeartPoint` returns, whatever the rounding of
`angle += 0.2`, whether or not `this.garden` is set, and for any number of timer intervals),
over the reals with the real square root: the points for which `createRandomBloom` was
requested are exactly the points of the heart list; each of them lies inside
`0 <= x <= width`, `0 <= y <= height`; and any two of them at different positions of the list
have Euclidean distance at least `1.3 * bloomRadius.max`. -/
theorem heart_points_spaced (fl : ℝ → ℝ) (env : ℕ → HeartEnv ℝ) (width height maxR : ℝ)
    (n : ℕ)
    (hconst : ∀ k, k < n →
      (env k).width = width ∧ (env k).height = height ∧ (env k).maxR = maxR) :
    (LoveApp.startHeartAnimation fl Real.sqrt env n).requested =
      (LoveApp.startHeartAnimation fl Real.sqrt env n).heart ∧
    (∀ p ∈ (LoveApp.startHeartAnimation fl Real.sqrt env n).heart,
      0 ≤ p.1 ∧ p.1 ≤ width ∧ 0 ≤ p.2 ∧ p.2 ≤ height) ∧
    (∀ (i j : ℕ) (p q : ℝ × ℝ), i ≠ j →
      (LoveApp.startHeartAnimation fl Real.sqrt env n).heart[i]? = some p →
      (LoveApp.startHeartAnimation fl Real.sqrt env n).heart[j]? = some q →
      13 / 10 * maxR ≤ Real.sqrt ((p.1 - q.1) ^ 2 + (p.2 - q.2) ^ 2)) := by
  obtain ⟨hr, hacc⟩ := LoveApp.heart_points_when_accepted fl env n
  refine ⟨hr, fun p hp => ?_, fun i j p q hij hi hj => ?_⟩
  · obtain ⟨j, hj⟩ := List.getElem?_of_mem hp
    obtain ⟨k, hk, hb, _⟩ := hacc j p hj
    obtain ⟨e1, e2, _⟩ := hconst k hk
    rw [e1, e2] at hb
    exact hb
  · have key : ∀ (i j : ℕ) (p q : ℝ × ℝ), i < j →
        (LoveApp.startHeartAnimation fl Real.sqrt env n).heart[i]? = some p →
        (LoveApp.startHeartAnimation fl Real.sqrt env n).heart[j]? = some q →
        13 / 10 * maxR ≤ Real.sqrt ((p.1 - q.1) ^ 2 + (p.2 - q.2) ^ 2) := by
      intro i j p q hlt hi hj
      obtain ⟨k, hk, _, hd⟩ := hacc j q hj
      have := hd i p hlt hi
      rwa [(hconst k hk).2.2] at this
    rcases Nat.lt_or_gt_of_ne hij with h | h
    · exact key i j p q h hi hj
    · have := key j i q p h hj hi
      rwa [show (p.1 - q.1) ^ 2 + (p.2 - q.2) ^ 2 = (q.1 - p.1) ^ 2 + (q.2 - p.2) ^ 2 by ring]

/-- C7 amended, on a desktop viewport that is not resized: the first callback accepts the
point `(334.98, 596.97)`, requests `createRandomBloom` for it, and the point is inside the
670x625 canvas. -/
theorem heart_points_spaced_witness :
    (LoveApp.startHeartAnimation id Real.sqrt (desktopHeartEnv ℝ) 1).heart =
      [(33498 / 100, 59697 / 100)] ∧
    (LoveApp.startHeartAnimation id Real.sqrt (desktopHeartEnv ℝ) 1).requested =
      (LoveApp.startHeartAnimation id Real.sqrt (desktopHeartEnv ℝ) 1).heart ∧
    ∀ p ∈ (LoveApp.startHeartAnimation id Real.sqrt (desktopHeartEnv ℝ) 1).heart,
      0 ≤ p.1 ∧ p.1 ≤ 670 ∧ 0 ≤ p.2 ∧ p.2 ≤ 625 :=
  have h := heart_points_spaced id (desktopHeartEnv ℝ) 670 625 10 1
    (fun _ _ => ⟨rfl, rfl, rfl⟩)
  ⟨LoveApp.startHeartAnimation_first id Real.sqrt (desktopHeartEnv ℝ) rfl
      (by norm_num [desktopHeartEnv]) (by norm_num [desktopHeartEnv])
      (by norm_num [desktopHeartEnv]) (by norm_num [desktopHeartEnv]),
    h.1, h.2.1⟩

/-! ## Lemmas and claims: creating a Bloom -/

/-- The loop test `i < pc` of `Bloom.init` holds exactly for the first
`Bloom.petalIterations pc` naturals. -/
theorem Bloom.petalIterations_spec (pc : ℚ) (i : ℕ) :
    (i : ℚ) < pc ↔ i < Bloom.petalIterations pc := by
  unfold Bloom.petalIterations
  rw [Int.lt_toNat, Int.lt_ceil]
  simp


theorem Garden.createBloom_blooms (o : Options) (innerWidth : ℚ) (rnd : ℕ → ℚ) (k : ℕ)
    (g : Garden) (x y r : ℚ) (c : Rgba) (pc : ℚ) :
    (Garden.createBloom o innerWidth rnd k g x y r c pc).1.blooms = g.blooms ++ [g.nextRef] := rfl

theorem Garden.createBloom_store_new (o : Options) (innerWidth : ℚ) (rnd : ℕ → ℚ) (k : ℕ)
    (g : Garden) (x y r : ℚ) (c : Rgba) (pc : ℚ) :
    (Garden.createBloom o innerWidth rnd k g x y r c pc).1.store g.nextRef =
      { p := ⟨x, y⟩, r := r, c := c, pc := pc, petals := (Bloom.init o rnd k pc).1, scale := 1,
        maxScale := Garden.getResponsiveScale innerWidth } := by
  simp [Garden.createBloom, Bloom.new, Garden.addBloom]

theorem Garden.createBloom_store_old (o : Options) (innerWidth : ℚ) (rnd : ℕ → ℚ) (k : ℕ)
    (g : Garden) (x y r : ℚ) (c : Rgba) (pc : ℚ) (b : ℕ) (hb : b ≠ g.nextRef) :
    (Garden.createBloom o innerWidth rnd k g x y r c pc).1.store b = g.store b := by
  simp [Garden.createBloom, Bloom.new, Garden.addBloom, hb]

/-- Creating a Bloom keeps the references of `garden.blooms` distinct and allocated. -/
theorem Garden.createBloom_WF (o : Options) (innerWidth : ℚ) (rnd : ℕ → ℚ) (k : ℕ)
    (g : Garden) (x y r : ℚ) (c : Rgba) (pc : ℚ) (h : g.WF) :
    (Garden.createBloom o innerWidth rnd k g x y r c pc).1.WF := by
  obtain ⟨hn, hlt⟩ := h
  refine ⟨?_, ?_⟩
  · rw [Garden.createBloom_blooms]
    refine List.Nodup.append hn (List.nodup_singleton _) ?_
    intro a ha hb
    simp only [List.mem_singleton] at hb
    have := hlt a ha
    omega
  · intro b hb
    rw [Garden.createBloom_blooms] at hb
    simp only [List.mem_append, List.mem_singleton] at hb
    have e : (Garden.createBloom o innerWidth rnd k g x y r c pc).1.nextRef = g.nextRef + 1 := rfl
    rw [e]
    rcases hb with hb | rfl
    · have := hlt b hb; omega
    · omega

/-- The fresh garden has no Bloom registered. -/
theorem Garden.new_WF (innerWidth : ℚ) (o : Options) (element : Canvas) :
    (Garden.new innerWidth o element).1.WF :=
  ⟨List.nodup_nil, fun _ h => by simp [Garden.new] at h⟩

/-- What `Garden.createRandomBloom` returns when the colour sampling returns. -/
theorem Garden.createRandomBloom_some (fuel : ℕ) (o : Options) (innerWidth : ℚ) (rnd : ℕ → ℚ)
    (k : ℕ) (g : Garden) (x y : ℚ) (res : Garden × ℕ)
    (h : Garden.createRandomBloom fuel o innerWidth rnd k g x y = some res) :
    ∃ c k1, Garden.randomrgba fuel rnd (k + 1) o.color.rmin o.color.rmax o.color.gmin
        o.color.gmax o.color.bmin o.color.bmax o.color.opacity = some (c, k1) ∧
      res = Garden.createBloom o innerWidth rnd (k1 + 1) g
        (max 0 (min x g.element.width)) (max 0 (min y g.element.height))
        (Garden.randomInt (rnd k) o.bloomRadius.min o.bloomRadius.max) c
        (Garden.randomInt (rnd k1) o.petalCount.min o.petalCount.max) := by
  unfold Garden.createRandomBloom at h
  cases hc : Garden.randomrgba fuel rnd (k + 1) o.color.rmin o.color.rmax o.color.gmin
      o.color.gmax o.color.bmin o.color.bmax o.color.opacity with
  | none => rw [hc] at h; simp at h
  | some ck =>
    obtain ⟨c, k1⟩ := ck
    rw [hc] at h
    simp only [Option.some.injEq] at h
    exact ⟨c, k1, rfl, h.symm⟩

/-- C5: on a surface with `width >= 0` and `height >= 0`, whenever
`Garden.createRandomBloom(x, y)` returns it has appended exactly one Bloom (a new
reference, every Bloom stored before untouched) to `garden.blooms`, whose position `p`
satisfies `0 <= p.x <= width` and `0 <= p.y <= height`, with `p.x = x` when
`0 <= x <= width` and `p.y = y` when `0 <= y <= height`; and it does return, for every large
enough recursion bound of the colour sampling, as soon as one colour attempt is not
near-grey. -/
theorem createRandomBloom_clamps (o : Options) (innerWidth : ℚ) (rnd : ℕ → ℚ) (k : ℕ)
    (g : Garden) (x y : ℚ) (hw : 0 ≤ g.element.width) (hh : 0 ≤ g.element.height) :
    (∀ fuel res, Garden.createRandomBloom fuel o innerWidth rnd k g x y = some res →
      res.1.blooms = g.blooms ++ [g.nextRef] ∧
      (∀ b, b ≠ g.nextRef → res.1.store b = g.store b) ∧
      (g.WF → g.nextRef ∉ g.blooms ∧ res.1.WF) ∧
      0 ≤ (res.1.store g.nextRef).p.x ∧ (res.1.store g.nextRef).p.x ≤ g.element.width ∧
      0 ≤ (res.1.store g.nextRef).p.y ∧ (res.1.store g.nextRef).p.y ≤ g.element.height ∧
      (0 ≤ x → x ≤ g.element.width → (res.1.store g.nextRef).p.x = x) ∧
      (0 ≤ y → y ≤ g.element.height → (res.1.store g.nextRef).p.y = y)) ∧
    ((∃ j, ¬ Garden.nearGrey (Garden.channels rnd (k + 1 + 3 * j) o.color.rmin o.color.rmax
        o.color.gmin o.color.gmax o.color.bmin o.color.bmax)) →
      ∃ fuel0, ∀ fuel, fuel0 ≤ fuel →
        (Garden.createRandomBloom fuel o innerWidth rnd k g x y).isSome = true) := by
  refine ⟨fun fuel res h => ?_, fun hj => ?_⟩
  · obtain ⟨c, k1, _, rfl⟩ := Garden.createRandomBloom_some fuel o innerWidth rnd k g x y res h
    refine ⟨Garden.createBloom_blooms .., fun b hb => Garden.createBloom_store_old _ _ _ _ _ _ _ _ _ _ b hb,
      fun hwf => ⟨fun hmem => ?_, Garden.createBloom_WF _ _ _ _ _ _ _ _ _ _ hwf⟩, ?_⟩
    · have := hwf.2 _ hmem; omega
    · rw [Garden.createBloom_store_new]
      refine ⟨le_max_left _ _, max_le hw (min_le_right _ _), le_max_left _ _,
        max_le hh (min_le_right _ _), fun h0 h1 => ?_, fun h0 h1 => ?_⟩
      · simp [min_eq_left h1, max_eq_right h0]
      · simp [min_eq_left h1, max_eq_right h0]
  · obtain ⟨fuel0, hf⟩ := Garden.randomrgba_terminates rnd o.color.rmin o.color.rmax o.color.gmin
      o.color.gmax o.color.bmin o.color.bmax o.color.opacity (k + 1) hj
    refine ⟨fuel0, fun fuel hle => ?_⟩
    have := hf fuel hle
    unfold Garden.createRandomBloom
    cases hc : Garden.randomrgba fuel rnd (k + 1) o.color.rmin o.color.rmax o.color.gmin
      o.color.gmax o.color.bmin o.color.bmax o.color.opacity with
    | none => rw [hc] at this; simp at this
    | some ck => rfl

/-- C5 on the fresh 670x625 garden: `createRandomBloom(700, -5)` returns and registers one
Bloom, at a position inside the canvas. -/
theorem createRandomBloom_clamps_witness :
    ∃ res, Garden.createRandomBloom 1 Garden.options 1024 halfStream 0 freshGarden 700 (-5) =
        some res ∧
      res.1.blooms = [0] ∧
      0 ≤ (res.1.store 0).p.x ∧ (res.1.store 0).p.x ≤ 670 ∧
      0 ≤ (res.1.store 0).p.y ∧ (res.1.store 0).p.y ≤ 625 := by
  have hs : (Garden.createRandomBloom 1 Garden.options 1024 halfStream 0 freshGarden 700
      (-5)).isSome = true := by decide!
  obtain ⟨res, hres⟩ := Option.isSome_iff_exists.mp hs
  have h := (createRandomBloom_clamps Garden.options 1024 halfStream 0 freshGarden 700 (-5)
    (by norm_num [freshGarden, Garden.new]) (by norm_num [freshGarden, Garden.new])).1 1 res hres
  exact ⟨res, hres, h.1, h.2.2.2.1, h.2.2.2.2.1, h.2.2.2.2.2.1, h.2.2.2.2.2.2.1⟩

/-! ## Lemmas: drawing and removal -/

theorem Garden.removeBloom_blooms (g : Garden) (b : ℕ) :
    (g.removeBloom b).blooms = g.blooms.erase b := by
  unfold Garden.removeBloom
  simp only
  split
  · simp
  · rename_i h
    have hb : b ∉ g.blooms := fun hm => h (List.indexOf_lt_length.mpr hm)
    exact (List.erase_of_not_mem hb).symm

theorem Garden.removeBloom_store (g : Garden) (b : ℕ) : (g.removeBloom b).store = g.store := by
  unfold Garden.removeBloom
  simp only
  split <;> rfl

theorem Bloom.renderPetals_acc (R : ℚ) (ps : List Petal) (acc : Bool)
    (h : (Bloom.renderPetals R ps acc).2 = true) : acc = true := by
  induction ps generalizing acc with
  | nil => simpa [Bloom.renderPetals] using h
  | cons p ps ih =>
    simp only [Bloom.renderPetals] at h
    have := ih _ h
    simp only [Bool.and_eq_true] at this
    exact this.1

/-- When the flag computed by the petal loop is true, every rendered petal is finished. -/
theorem Bloom.renderPetals_finished (R : ℚ) (ps : List Petal) (acc : Bool)
    (h : (Bloom.renderPetals R ps acc).2 = true) :
    ∀ p ∈ (Bloom.renderPetals R ps acc).1, p.isfinished = true := by
  induction ps generalizing acc with
  | nil => simp [Bloom.renderPetals]
  | cons p ps ih =>
    simp only [Bloom.renderPetals] at h ⊢
    intro q hq
    simp only [List.mem_cons] at hq
    rcases hq with rfl | hq
    · have := Bloom.renderPetals_acc R ps _ h
      simp only [Bool.and_eq_true] at this
      exact this.2
    · exact ih _ h q hq

/-- The petals of a Bloom after its `draw`. -/
theorem Bloom.draw_petals (g : Garden) (this : ℕ) :
    ((Bloom.draw g this).store this).petals =
      (Bloom.renderPetals (g.store this).r (g.store this).petals true).1 := by
  unfold Bloom.draw
  simp only
  split <;> simp [Garden.removeBloom_store]

/-- `garden.blooms` after a `Bloom.draw`: unchanged, or the receiver erased, and then all
the petals of the receiver are finished. -/
theorem Bloom.draw_blooms (g : Garden) (this : ℕ) :
    (Bloom.draw g this).blooms = g.blooms ∨
    ((Bloom.draw g this).blooms = g.blooms.erase this ∧
      ∀ p ∈ ((Bloom.draw g this).store this).petals, p.isfinished = true) := by
  by_cases h : (Bloom.renderPetals (g.store this).r (g.store this).petals true).2 = true
  · right
    refine ⟨?_, ?_⟩
    · unfold Bloom.draw
      simp only [h, if_true, Garden.removeBloom_blooms]
    · rw [Bloom.draw_petals]
      exact Bloom.renderPetals_finished _ _ _ h
  · left
    unfold Bloom.draw
    simp only [h]
    rfl

theorem Bloom.draw_blooms_sublist (g : Garden) (this : ℕ) :
    (Bloom.draw g this).blooms.Sublist g.blooms := by
  rcases Bloom.draw_blooms g this with h | ⟨h, _⟩
  · rw [h]
  · rw [h]; exact List.erase_sublist _ _

theorem Bloom.draw_lastTime (g : Garden) (this : ℕ) :
    (Bloom.draw g this).lastTime = g.lastTime ∧
    (Bloom.draw g this).frameInterval = g.frameInterval := by
  unfold Bloom.draw Garden.removeBloom
  simp only
  split
  · split <;> exact ⟨rfl, rfl⟩
  · exact ⟨rfl, rfl⟩

/-! ## Lemmas: the render loop -/

/-- The bound `blooms.length - i` is enough for the loop of `Garden.render`: with it the
loop ends through its own test `i < this.blooms.length`, a larger bound changes nothing. -/
theorem Garden.renderLoop_fuel (fuel i : ℕ) (g : Garden) (h : g.blooms.length - i ≤ fuel) :
    Garden.renderLoop (fuel + 1) i g = Garden.renderLoop fuel i g := by
  induction fuel generalizing i g with
  | zero =>
    have : ¬ i < g.blooms.length := by omega
    simp [Garden.renderLoop, this]
  | succ fuel ih =>
    by_cases hi : i < g.blooms.length
    · have hlen := (Bloom.draw_blooms_sublist g (g.blooms.getD i 0)).length_le
      have := ih (i + 1) (Bloom.draw g (g.blooms.getD i 0)) (by omega)
      rw [Garden.renderLoop, if_pos hi]
      conv_rhs => rw [Garden.renderLoop, if_pos hi]
      simp only [this]
    · rw [Garden.renderLoop, if_neg hi]
      conv_rhs => rw [Garden.renderLoop, if_neg hi]

theorem DrawChain.append {bl : List ℕ} {cs1 : List DrawCall} {bl1 : List ℕ}
    {cs2 : List DrawCall} {bl2 : List ℕ} (h1 : DrawChain bl cs1 bl1)
    (h2 : DrawChain bl1 cs2 bl2) : DrawChain bl (cs1 ++ cs2) bl2 := by
  induction cs1 generalizing bl with
  | nil => simp only [DrawChain] at h1; subst h1; simpa using h2
  | cons c cs ih =>
    obtain ⟨hb, hm, ha, hrest⟩ := h1
    exact ⟨hb, hm, ha, ih hrest⟩

theorem DrawChain.split {bl : List ℕ} {l1 : List DrawCall} {c : DrawCall}
    {l2 : List DrawCall} {bl1 : List ℕ} (h : DrawChain bl (l1 ++ c :: l2) bl1) :
    ∃ mid, DrawChain bl l1 mid ∧ DrawChain mid (c :: l2) bl1 := by
  induction l1 generalizing bl with
  | nil => exact ⟨bl, rfl, h⟩
  | cons d ds ih =>
    obtain ⟨hb, hm, ha, hrest⟩ := h
    obtain ⟨mid, h1, h2⟩ := ih hrest
    exact ⟨mid, ⟨hb, hm, ha, h1⟩, h2⟩

theorem Garden.renderLoop_chain (fuel i : ℕ) (g : Garden) :
    DrawChain g.blooms (Garden.renderLoop fuel i g).2 (Garden.renderLoop fuel i g).1.blooms := by
  induction fuel generalizing i g with
  | zero => simp [Garden.renderLoop, DrawChain]
  | succ fuel ih =>
    rw [Garden.renderLoop]
    split
    · rename_i hi
      refine ⟨rfl, ?_, rfl, ih _ _⟩
      simp only [List.getD_eq_getElem?_getD, List.getElem?_eq_getElem hi, Option.getD_some]
      exact List.getElem_mem hi
    · simp [DrawChain]

theorem Garden.render_chain (g : Garden) (t : ℚ) :
    DrawChain g.blooms (g.render t).2 (g.render t).1.blooms := by
  unfold Garden.render
  split
  · exact Garden.renderLoop_chain _ _ _
  · simp [DrawChain]

theorem Garden.renders_chain (g : Garden) (ts : List ℚ) :
    DrawChain g.blooms (g.renders ts).2 (g.renders ts).1.blooms := by
  induction ts generalizing g with
  | nil => simp [Garden.renders, DrawChain]
  | cons t ts ih =>
    simp only [Garden.renders]
    exact DrawChain.append (Garden.render_chain g t) (ih _)

/-- A reference that is not registered stays unregistered and is not drawn. -/
theorem DrawChain.not_mem {bl : List ℕ} {cs : List DrawCall} {bl1 : List ℕ}
    (h : DrawChain bl cs bl1) (b : ℕ) (hb : b ∉ bl) :
    (∀ c ∈ cs, c.this ≠ b ∧ b ∉ c.before.blooms ∧ b ∉ c.after.blooms) ∧ b ∉ bl1 := by
  induction cs generalizing bl with
  | nil => simp only [DrawChain] at h; subst h; simpa using hb
  | cons c cs ih =>
    obtain ⟨hbl, hm, ha, hrest⟩ := h
    have hafter : b ∉ c.after.blooms := by
      rw [ha]
      intro hmem
      exact hb (hbl ▸ (Bloom.draw_blooms_sublist c.before c.this).subset hmem)
    obtain ⟨h1, h2⟩ := ih hrest hafter
    refine ⟨?_, h2⟩
    intro d hd
    simp only [List.mem_cons] at hd
    rcases hd with rfl | hd
    · exact ⟨fun e => hb (e ▸ hm), hbl ▸ hb, hafter⟩
    · exact h1 d hd

/-- The facts about one recorded `Bloom.draw` on a garden without duplicates in `blooms`. -/
theorem DrawCall.removes_spec (c : DrawCall) (ha : c.after = Bloom.draw c.before c.this)
    (hn : c.before.blooms.Nodup) (hr : c.removes) :
    c.after.blooms = c.before.blooms.erase c.this ∧ c.this ∉ c.after.blooms ∧
      ∀ p ∈ (c.after.store c.this).petals, p.isfinished = true := by
  unfold DrawCall.removes at hr
  rw [ha] at hr ⊢
  rcases Bloom.draw_blooms c.before c.this with h | ⟨h, hp⟩
  · exact absurd h hr
  · refine ⟨h, ?_, hp⟩
    rw [h]
    exact fun hm => (List.Nodup.mem_erase_iff hn).mp hm |>.1 rfl

/-- Only the `draw` of a Bloom takes it out of `garden.blooms`. -/
theorem DrawCall.removed_by_own_draw (c : DrawCall)
    (ha : c.after = Bloom.draw c.before c.this) (b : ℕ) (hb : b ∈ c.before.blooms)
    (hnb : b ∉ c.after.blooms) : c.this = b ∧ c.removes := by
  unfold DrawCall.removes
  rw [ha] at hnb ⊢
  rcases Bloom.draw_blooms c.before c.this with h | ⟨h, _⟩
  · rw [h] at hnb; exact absurd hb hnb
  · rw [h] at hnb ⊢
    have e : c.this = b := by
      by_contra hne
      exact hnb ((List.mem_erase_of_ne (fun e => hne e.symm)).mpr hb)
    refine ⟨e, fun heq => ?_⟩
    rw [heq] at hnb
    exact hnb hb

theorem DrawChain.facts {bl : List ℕ} {cs : List DrawCall} {bl1 : List ℕ}
    (h : DrawChain bl cs bl1) (hn : bl.Nodup) (b : ℕ) :
    (∀ c ∈ cs, c.this ∈ c.before.blooms ∧ c.after = Bloom.draw c.before c.this ∧
      c.before.blooms.Nodup) ∧
    bl1.Nodup ∧
    cs.countP (fun c => decide (c.this = b ∧ c.removes)) ≤ 1 := by
  induction cs generalizing bl with
  | nil => simp only [DrawChain] at h; subst h; simpa using hn
  | cons c cs ih =>
    obtain ⟨hbl, hm, ha, hrest⟩ := h
    have hn1 : c.before.blooms.Nodup := hbl ▸ hn
    have hn2 : c.after.blooms.Nodup := by
      rw [ha]; exact hn1.sublist (Bloom.draw_blooms_sublist _ _)
    obtain ⟨h1, h2, h3⟩ := ih hrest hn2
    refine ⟨?_, h2, ?_⟩
    · intro d hd
      simp only [List.mem_cons] at hd
      rcases hd with rfl | hd
      · exact ⟨hbl ▸ hm, ha, hn1⟩
      · exact h1 d hd
    · by_cases hc : c.this = b ∧ c.removes
      · have hnot := (DrawCall.removes_spec c ha hn1 hc.2).2.1
        rw [hc.1] at hnot
        have hnone := (DrawChain.not_mem hrest b hnot).1
        have hz : cs.countP (fun c => decide (c.this = b ∧ c.removes)) = 0 := by
          rw [List.countP_eq_zero]
          intro d hd
          simp only [decide_eq_true_eq, not_and]
          exact fun e => absurd e (hnone d hd).1
        rw [List.countP_cons, hz]
        simp [hc]
      · simp only [List.countP_cons, hc, decide_False, Bool.false_eq_true, if_false, add_zero]
        exact h3

theorem DrawChain.sublist {bl : List ℕ} {cs : List DrawCall} {bl1 : List ℕ}
    (h : DrawChain bl cs bl1) : bl1.Sublist bl := by
  induction cs generalizing bl with
  | nil => simp only [DrawChain] at h; subst h; exact List.Sublist.refl _
  | cons c cs ih =>
    obtain ⟨hbl, _, ha, hrest⟩ := h
    have h1 := ih hrest
    rw [ha] at h1
    exact hbl ▸ h1.trans (Bloom.draw_blooms_sublist _ _)

theorem Bloom.draw_nextRef (g : Garden) (this : ℕ) : (Bloom.draw g this).nextRef = g.nextRef := by
  unfold Bloom.draw Garden.removeBloom
  simp only
  split
  · split <;> rfl
  · rfl

theorem Garden.renderLoop_nextRef (fuel i : ℕ) (g : Garden) :
    (Garden.renderLoop fuel i g).1.nextRef = g.nextRef := by
  induction fuel generalizing i g with
  | zero => rfl
  | succ fuel ih =>
    rw [Garden.renderLoop]
    split
    · exact (ih _ _).trans (Bloom.draw_nextRef _ _)
    · rfl

theorem Garden.renders_nextRef (g : Garden) (ts : List ℚ) :
    (g.renders ts).1.nextRef = g.nextRef := by
  induction ts generalizing g with
  | nil => rfl
  | cons t ts ih =>
    simp only [Garden.renders]
    rw [ih]
    unfold Garden.render
    split
    · exact Garden.renderLoop_nextRef _ _ _
    · rfl

/-- Rendering keeps the references of `garden.blooms` distinct and allocated. -/
theorem Garden.renders_WF (g : Garden) (ts : List ℚ) (h : g.WF) : (g.renders ts).1.WF := by
  have hch := Garden.renders_chain g ts
  refine ⟨h.1.sublist hch.sublist, fun b hb => ?_⟩
  rw [Garden.renders_nextRef]
  exact h.2 b (hch.sublist.subset hb)

/-- In a frame in which no `draw` splices `garden.blooms`, the loop of `Garden.render` draws
the Blooms from index `i` on, each once, in the order of `garden.blooms`. -/
theorem Garden.renderLoop_no_removal (fuel i : ℕ) (g : Garden)
    (hf : g.blooms.length - i ≤ fuel)
    (h : ∀ c ∈ (Garden.renderLoop fuel i g).2, ¬ c.removes) :
    (Garden.renderLoop fuel i g).2.map DrawCall.this = g.blooms.drop i := by
  induction fuel generalizing i g with
  | zero =>
    have : g.blooms.length ≤ i := by omega
    simp [Garden.renderLoop, List.drop_eq_nil_of_le this]
  | succ fuel ih =>
    rw [Garden.renderLoop] at h ⊢
    by_cases hi : i < g.blooms.length
    · rw [if_pos hi] at h ⊢
      have hsame : (Bloom.draw g (g.blooms.getD i 0)).blooms = g.blooms := by
        have := h ⟨g.blooms.getD i 0, g, Bloom.draw g (g.blooms.getD i 0)⟩
          (List.mem_cons_self _ _)
        simpa [DrawCall.removes] using this
      have hrest := ih (i + 1) (Bloom.draw g (g.blooms.getD i 0)) (by rw [hsame]; omega)
        (fun c hc => h c (List.mem_cons_of_mem _ hc))
      simp only [List.map_cons, hrest, hsame]
      rw [List.getD_eq_getElem?_getD, List.getElem?_eq_getElem hi, Option.getD_some]
      exact (List.drop_eq_getElem_cons hi).symm
    · rw [if_neg hi]
      simp [List.drop_eq_nil_of_le (not_lt.mp hi)]

/-- A drawn frame in which no Bloom removes itself draws every Bloom of `garden.blooms`
exactly once, in insertion order. -/
theorem Garden.render_draws_all (g : Garden) (t : ℚ) (ht : t - g.lastTime ≥ g.frameInterval)
    (h : ∀ c ∈ (g.render t).2, ¬ c.removes) :
    (g.render t).2.map DrawCall.this = g.blooms := by
  unfold Garden.render at h ⊢
  rw [if_pos ht] at h ⊢
  simpa using Garden.renderLoop_no_removal g.blooms.length 0 g (by omega) h

/-! ## Claims: the life of a Bloom -/

/-- What a chain says in plain terms: `garden.blooms` is carried unchanged from the start to
the first recorded call, from each call to the next, and from the last call to the end. -/
theorem DrawChain.carried {bl : List ℕ} {cs : List DrawCall} {bl1 : List ℕ}
    (h : DrawChain bl cs bl1) :
    (cs = [] → bl1 = bl) ∧
    (∀ c, cs.head? = some c → c.before.blooms = bl) ∧
    (∀ (i : ℕ) (c d : DrawCall), cs[i]? = some c → cs[i + 1]? = some d →
      d.before.blooms = c.after.blooms) ∧
    (∀ c, cs.getLast? = some c → bl1 = c.after.blooms) := by
  induction cs generalizing bl with
  | nil =>
    simp only [DrawChain] at h
    subst h
    simp
  | cons c cs ih =>
    obtain ⟨hbl, _, _, hrest⟩ := h
    obtain ⟨i1, i2, i3, i4⟩ := ih hrest
    refine ⟨by simp, ?_, ?_, ?_⟩
    · intro d hd
      simp only [List.head?_cons, Option.some.injEq] at hd
      subst hd
      exact hbl
    · intro i a d ha hd
      cases i with
      | zero =>
        simp only [List.getElem?_cons_zero, Option.some.injEq] at ha
        subst ha
        simp only [zero_add, List.getElem?_cons_succ] at hd
        exact i2 d (by rw [List.head?_eq_getElem?]; exact hd)
      | succ i =>
        simp only [List.getElem?_cons_succ] at ha hd
        exact i3 i a d ha hd
    · intro d hd
      cases cs with
      | nil =>
        simp only [List.getLast?_singleton, Option.some.injEq] at hd
        subst hd
        exact i1 rfl
      | cons e es =>
        rw [List.getLast?_cons_cons] at hd
        exact i4 d hd

/-- A Bloom that is registered at the start of a chain and not at its end was taken out by
one of the recorded calls. -/
theorem DrawChain.removed_within {bl : List ℕ} {cs : List DrawCall} {bl1 : List ℕ}
    (h : DrawChain bl cs bl1) (b : ℕ) (hb : b ∈ bl) (hnb : b ∉ bl1) :
    ∃ c ∈ cs, b ∈ c.before.blooms ∧ b ∉ c.after.blooms := by
  induction cs generalizing bl with
  | nil => simp only [DrawChain] at h; subst h; exact absurd hb hnb
  | cons c cs ih =>
    obtain ⟨hbl, _, _, hrest⟩ := h
    by_cases hmem : b ∈ c.after.blooms
    · obtain ⟨d, hd, h1, h2⟩ := ih hrest hmem
      exact ⟨d, List.mem_cons_of_mem _ hd, h1, h2⟩
    · exact ⟨c, List.mem_cons_self _ _, hbl ▸ hb, hmem⟩

/-- C1: in a garden whose `blooms` holds no Bloom twice, over any sequence of
`Garden.render` calls and for every Bloom `b`: (0) `garden.blooms` changes only inside the
recorded `Bloom.draw` calls: it is carried unchanged from the given garden to the first call,
from each call to the next and from the last call to the final garden (the same list when no
call was made), the final list is a sublist of the initial one, and a Bloom that was
registered at the start and is not at the end was spliced out by a recorded `draw` of its
own, at whose end every one of its petals has `isfinished = true`; (1) every recorded call
is `Bloom.draw` on a Bloom that is in `garden.blooms` at that moment; (2) a Bloom leaves
`garden.blooms` only in its own `draw`, by the splice of `removeBloom`; (3) a `draw` that
splices removes its receiver, and at its end every petal of the receiver has
`isfinished = true`; (4) after a `draw` of `b` that spliced, `b` is in `garden.blooms`
neither before nor after any later call nor at the end, and no later call is a `draw` of
`b`; (5) at most one `draw` of `b` splices. -/
theorem bloom_removed_at_most_once (g : Garden) (hwf : g.WF) (ts : List ℚ) (b : ℕ) :
    (DrawChain g.blooms (g.renders ts).2 (g.renders ts).1.blooms ∧
      ((g.renders ts).2 = [] → (g.renders ts).1.blooms = g.blooms) ∧
      (∀ c, (g.renders ts).2.head? = some c → c.before.blooms = g.blooms) ∧
      (∀ (i : ℕ) (c d : DrawCall), (g.renders ts).2[i]? = some c →
        (g.renders ts).2[i + 1]? = some d → d.before.blooms = c.after.blooms) ∧
      (∀ c, (g.renders ts).2.getLast? = some c → (g.renders ts).1.blooms = c.after.blooms) ∧
      (g.renders ts).1.blooms.Sublist g.blooms ∧
      (b ∈ g.blooms → b ∉ (g.renders ts).1.blooms →
        ∃ c ∈ (g.renders ts).2, c.this = b ∧ c.removes ∧
          ∀ p ∈ (c.after.store b).petals, p.isfinished = true)) ∧
    (∀ c ∈ (g.renders ts).2, c.this ∈ c.before.blooms ∧
      c.after = Bloom.draw c.before c.this) ∧
    (∀ c ∈ (g.renders ts).2, b ∈ c.before.blooms → b ∉ c.after.blooms →
      c.this = b ∧ c.removes) ∧
    (∀ c ∈ (g.renders ts).2, c.removes →
      c.after.blooms = c.before.blooms.erase c.this ∧ c.this ∉ c.after.blooms ∧
      ∀ p ∈ (c.after.store c.this).petals, p.isfinished = true) ∧
    (∀ l1 c l2, (g.renders ts).2 = l1 ++ c :: l2 → c.this = b → c.removes →
      (∀ c2 ∈ l2, c2.this ≠ b ∧ b ∉ c2.before.blooms ∧ b ∉ c2.after.blooms) ∧
      b ∉ (g.renders ts).1.blooms) ∧
    (g.renders ts).2.countP (fun c => decide (c.this = b ∧ c.removes)) ≤ 1 := by
  have hch := Garden.renders_chain g ts
  obtain ⟨h1, _, h3⟩ := DrawChain.facts hch hwf.1 b
  obtain ⟨k1, k2, k3, k4⟩ := DrawChain.carried hch
  refine ⟨⟨hch, k1, k2, k3, k4, hch.sublist, fun hb hnb => ?_⟩,
    fun c hc => ⟨(h1 c hc).1, (h1 c hc).2.1⟩, fun c hc hb hnb => ?_, fun c hc hr => ?_,
    fun l1 c l2 hl hcb hr => ?_, h3⟩
  · obtain ⟨c, hc, hin, hout⟩ := DrawChain.removed_within hch b hb hnb
    obtain ⟨e, hr⟩ := DrawCall.removed_by_own_draw c (h1 c hc).2.1 b hin hout
    have hp := (DrawCall.removes_spec c (h1 c hc).2.1 (h1 c hc).2.2 hr).2.2
    rw [e] at hp
    exact ⟨c, hc, e, hr, hp⟩
  · exact DrawCall.removed_by_own_draw c (h1 c hc).2.1 b hb hnb
  · exact DrawCall.removes_spec c (h1 c hc).2.1 (h1 c hc).2.2 hr
  · have hc : c ∈ (g.renders ts).2 := by rw [hl]; simp
    have hnot := (DrawCall.removes_spec c (h1 c hc).2.1 (h1 c hc).2.2 hr).2.1
    rw [hcb] at hnot
    rw [hl] at hch
    obtain ⟨mid, _, _, _, _, hrest⟩ := DrawChain.split hch
    exact DrawChain.not_mem hrest b hnot

/-- C1 on the garden with one Bloom, over 16 frames: the Bloom is spliced out exactly once
(in the 16th frame), by a recorded `draw` of its own at whose end all its petals are
finished, and is not registered at the end. -/
theorem bloom_removed_at_most_once_witness :
    (oneBloomGarden.renders (frameTimes 16)).2.countP
        (fun c => decide (c.this = 0 ∧ c.removes)) ≤ 1 ∧
    (oneBloomGarden.renders (frameTimes 16)).2.countP
        (fun c => decide (c.this = 0 ∧ c.removes)) = 1 ∧
    (oneBloomGarden.renders (frameTimes 16)).1.blooms = [] ∧
    ∃ c ∈ (oneBloomGarden.renders (frameTimes 16)).2, c.this = 0 ∧ c.removes ∧
      ∀ p ∈ (c.after.store 0).petals, p.isfinished = true :=
  have h := bloom_removed_at_most_once oneBloomGarden (by unfold Garden.WF; decide!)
    (frameTimes 16) 0
  ⟨h.2.2.2.2.2, by decide!, by decide!, h.1.2.2.2.2.2.2 (by decide!) (by decide!)⟩

/-- C3, the code at the failing input: `twoBloomGarden.blooms` is `[0, 1]` when the frame
at time 272 starts; Bloom 0 finishes in that frame and splices itself out, the loop index
moves on to 1, which is now past the end, and `draw` is never invoked on Bloom 1 in that
frame: the only `Bloom.draw` of the frame is the one of Bloom 0. -/
theorem render_skips_bloom_after_removal :
    twoBloomGarden.blooms = [0, 1] ∧
    twoBloomGarden.render 272 ≠ (twoBloomGarden, []) ∧
    (twoBloomGarden.render 272).2.map DrawCall.this = [0] ∧
    (twoBloomGarden.render 272).1.blooms = [1] := by
  refine ⟨by decide!, ?_, by decide!, by decide!⟩
  intro h
  have : (twoBloomGarden.render 272).2.length = 0 := by rw [h]; rfl
  revert this
  decide!

/-! ## Lemmas: one Bloom over the frames -/

theorem Petal.render_isfinished_of (R : ℚ) (p : Petal) (h : p.isfinished = true) :
    (Petal.render R p).1.isfinished = true := by
  unfold Petal.render
  split
  · simp [Petal.draw_isfinished, h]
  · rfl

theorem Bloom.renderPetals_fst (R : ℚ) (ps : List Petal) (acc : Bool) :
    (Bloom.renderPetals R ps acc).1 = ps.map (fun p => (Petal.render R p).1) := by
  induction ps generalizing acc with
  | nil => rfl
  | cons p ps ih => simp [Bloom.renderPetals, ih]

theorem Bloom.renderPetals_snd (R : ℚ) (ps : List Petal) (acc : Bool) :
    (Bloom.renderPetals R ps acc).2 = true ↔
      acc = true ∧ ∀ p ∈ (Bloom.renderPetals R ps acc).1, p.isfinished = true := by
  induction ps generalizing acc with
  | nil => simp [Bloom.renderPetals]
  | cons p ps ih =>
    simp only [Bloom.renderPetals, ih, Bool.and_eq_true, List.mem_cons, forall_eq_or_imp]
    tauto

theorem Bloom.draw_blooms_eq (g : Garden) (this : ℕ) :
    (Bloom.draw g this).blooms =
      if (Bloom.renderPetals (g.store this).r (g.store this).petals true).2 = true then
        g.blooms.erase this
      else g.blooms := by
  unfold Bloom.draw
  simp only
  split
  · rw [Garden.removeBloom_blooms]
  · rfl

theorem Bloom.draw_store_r (g : Garden) (this : ℕ) :
    ((Bloom.draw g this).store this).r = (g.store this).r := by
  unfold Bloom.draw
  simp only
  split <;> simp [Garden.removeBloom_store]

theorem Garden.renders_append (g : Garden) (ts1 ts2 : List ℚ) :
    (g.renders (ts1 ++ ts2)).1 = ((g.renders ts1).1.renders ts2).1 := by
  induction ts1 generalizing g with
  | nil => rfl
  | cons t ts ih =>
    show ((g.render t).1.renders (ts ++ ts2)).1 = _
    rw [ih]
    rfl

/-- A render call that draws a frame of a garden with the single Bloom `b`. -/
theorem Garden.render_single (g : Garden) (b : ℕ) (t : ℚ) (hb : g.blooms = [b])
    (ht : t - g.lastTime ≥ g.frameInterval) :
    (g.render t).1 = { Bloom.draw g b with lastTime := t } := by
  unfold Garden.render
  rw [if_pos ht]
  simp [hb, Garden.renderLoop]

/-- A render call that draws a frame of a garden without Blooms. -/
theorem Garden.render_empty (g : Garden) (t : ℚ) (hb : g.blooms = []) :
    (g.render t).1.blooms = [] ∧ (g.render t).1.store = g.store ∧
      (g.render t).1.frameInterval = g.frameInterval := by
  unfold Garden.render
  split
  · simp [hb, Garden.renderLoop]
  · exact ⟨hb, rfl, rfl⟩

theorem Bloom.initLoop_fresh (o : Options) (rnd : ℕ → ℚ) (angle startAngle : ℚ) (n i k : ℕ) :
    ∀ p ∈ Bloom.initLoop o rnd angle startAngle n i k, p.r = 1 ∧ p.isfinished = false := by
  induction n generalizing i k with
  | zero => simp [Bloom.initLoop]
  | succ n ih =>
    intro p hp
    simp only [Bloom.initLoop, List.mem_cons] at hp
    rcases hp with rfl | hp
    · exact ⟨rfl, rfl⟩
    · exact ih _ _ p hp

/-! ### The same with the rounding of doubles -/

theorem Petal.drawFl_fields (fl : ℚ → ℚ) (p : Petal) :
    (Petal.drawFl fl p).r = p.r ∧ (Petal.drawFl fl p).isfinished = p.isfinished ∧
      (Petal.drawFl fl p).growFactor = p.growFactor := by
  unfold Petal.drawFl; split <;> exact ⟨rfl, rfl, rfl⟩

/-- Without rounding, the rounded `render` is `Petal.render`. -/
theorem Petal.renderFl_id (R : ℚ) (p : Petal) : Petal.renderFl id R p = Petal.render R p := by
  simp [Petal.renderFl, Petal.render, Petal.drawFl, Petal.draw]

theorem Bloom.renderPetalsFl_id (R : ℚ) (ps : List Petal) (acc : Bool) :
    Bloom.renderPetalsFl id R ps acc = Bloom.renderPetals R ps acc := by
  induction ps generalizing acc with
  | nil => rfl
  | cons p ps ih => simp [Bloom.renderPetalsFl, Bloom.renderPetals, ih, Petal.renderFl_id]

theorem Bloom.drawFl_id (g : Garden) (this : ℕ) : Bloom.drawFl id g this = Bloom.draw g this := by
  simp [Bloom.drawFl, Bloom.draw, Bloom.renderPetalsFl_id]

theorem Garden.renderLoopFl_id (fuel i : ℕ) (g : Garden) :
    Garden.renderLoopFl id fuel i g = Garden.renderLoop fuel i g := by
  induction fuel generalizing i g with
  | zero => rfl
  | succ fuel ih => simp [Garden.renderLoopFl, Garden.renderLoop, ih, Bloom.drawFl_id]

/-- Without rounding, the rounded sequence of render calls is `Garden.renders`. -/
theorem Garden.rendersFl_id (g : Garden) (ts : List ℚ) : g.rendersFl id ts = g.renders ts := by
  induction ts generalizing g with
  | nil => rfl
  | cons t ts ih =>
    simp [Garden.rendersFl, Garden.renders, Garden.renderFl, Garden.render,
      Garden.renderLoopFl_id, ih]

theorem Petal.renderFl_growFactor (fl : ℚ → ℚ) (R : ℚ) (p : Petal) :
    (Petal.renderFl fl R p).1.growFactor = p.growFactor := by
  unfold Petal.renderFl; split
  · simp [(Petal.drawFl_fields fl _).2.2]
  · rfl

theorem Petal.renderFlN_growFactor (fl : ℚ → ℚ) (R : ℚ) (n : ℕ) (p : Petal) :
    (Petal.renderFlN fl R n p).growFactor = p.growFactor := by
  induction n with
  | zero => rfl
  | succ n ih => simp [Petal.renderFlN, Petal.renderFl_growFactor, ih]

theorem Petal.renderFl_of_gt (fl : ℚ → ℚ) (R : ℚ) (p : Petal) (h : R < p.r) :
    Petal.renderFl fl R p = ({ p with isfinished := true }, false) := by
  unfold Petal.renderFl; rw [if_neg (not_le.mpr h)]

theorem Petal.renderFl_isfinished_of (fl : ℚ → ℚ) (R : ℚ) (p : Petal)
    (h : p.isfinished = true) : (Petal.renderFl fl R p).1.isfinished = true := by
  unfold Petal.renderFl
  split
  · simp [(Petal.drawFl_fields fl _).2.1, h]
  · rfl

theorem Petal.renderFlN_isfinished_of (fl : ℚ → ℚ) (R : ℚ) (p : Petal) (n m : ℕ)
    (hnm : n ≤ m) (h : (Petal.renderFlN fl R n p).isfinished = true) :
    (Petal.renderFlN fl R m p).isfinished = true := by
  induction m with
  | zero =>
    have : n = 0 := by omega
    subst this
    exact h
  | succ m ih =>
    by_cases e : n = m + 1
    · subst e; exact h
    · exact Petal.renderFl_isfinished_of fl R _ (ih (by omega))

/-- A petal fresh from the constructor is finished after `n` render calls or has grown `n`
times. -/
theorem Petal.renderFlN_grown (fl : ℚ → ℚ) (R : ℚ) (p : Petal) (hr : p.r = 1) (n : ℕ) :
    (Petal.renderFlN fl R n p).isfinished = true ∨
      (Petal.renderFlN fl R n p).r = Petal.growFl fl p.growFactor n := by
  induction n with
  | zero => right; simp [Petal.renderFlN, Petal.growFl, hr]
  | succ n ih =>
    by_cases hle : (Petal.renderFlN fl R n p).r ≤ R
    · rcases ih with hf | hg
      · left
        exact Petal.renderFl_isfinished_of fl R _ hf
      · right
        show (Petal.renderFl fl R (Petal.renderFlN fl R n p)).1.r = _
        unfold Petal.renderFl
        rw [if_pos hle]
        simp only [(Petal.drawFl_fields fl _).1, hg, Petal.renderFlN_growFactor, Petal.growFl]
    · left
      show (Petal.renderFl fl R (Petal.renderFlN fl R n p)).1.isfinished = true
      rw [Petal.renderFl_of_gt fl R _ (not_le.mp hle)]

/-- A fresh petal whose radius passes `R` within 24 additions of its `growFactor` is finished
after 25 render calls. -/
theorem Petal.renderFlN_finished_25 (fl : ℚ → ℚ) (R : ℚ) (p : Petal) (hr : p.r = 1)
    (hfast : ∃ j, j < 25 ∧ R < Petal.growFl fl p.growFactor j) :
    (Petal.renderFlN fl R 25 p).isfinished = true := by
  obtain ⟨j, hj, hgt⟩ := hfast
  refine Petal.renderFlN_isfinished_of fl R p (j + 1) 25 (by omega) ?_
  show (Petal.renderFl fl R (Petal.renderFlN fl R j p)).1.isfinished = true
  rcases Petal.renderFlN_grown fl R p hr j with hf | hg
  · exact Petal.renderFl_isfinished_of fl R _ hf
  · have : R < (Petal.renderFlN fl R j p).r := by rw [hg]; exact hgt
    rw [Petal.renderFl_of_gt fl R _ this]

/-- A fresh petal whose radius does not pass `R` within 24 additions of its `growFactor` is
not finished by 25 render calls or fewer. -/
theorem Petal.renderFlN_unfinished (fl : ℚ → ℚ) (R : ℚ) (p : Petal) (hr : p.r = 1)
    (hf : p.isfinished = false) (hslow : ∀ j, j < 25 → Petal.growFl fl p.growFactor j ≤ R)
    (n : ℕ) (hn : n ≤ 25) :
    (Petal.renderFlN fl R n p).isfinished = false ∧
      (Petal.renderFlN fl R n p).r = Petal.growFl fl p.growFactor n := by
  induction n with
  | zero => simp [Petal.renderFlN, Petal.growFl, hr, hf]
  | succ n ih =>
    obtain ⟨h1, h2⟩ := ih (by omega)
    have hle : (Petal.renderFlN fl R n p).r ≤ R := by
      rw [h2]; exact hslow n (by omega)
    show (Petal.renderFl fl R (Petal.renderFlN fl R n p)).1.isfinished = false ∧
      (Petal.renderFl fl R (Petal.renderFlN fl R n p)).1.r = _
    unfold Petal.renderFl
    rw [if_pos hle]
    simp only [(Petal.drawFl_fields fl _).1, (Petal.drawFl_fields fl _).2.1, h1, h2,
      Petal.renderFlN_growFactor, Petal.growFl, and_self]

theorem Bloom.renderPetalsFl_fst (fl : ℚ → ℚ) (R : ℚ) (ps : List Petal) (acc : Bool) :
    (Bloom.renderPetalsFl fl R ps acc).1 = ps.map (fun p => (Petal.renderFl fl R p).1) := by
  induction ps generalizing acc with
  | nil => rfl
  | cons p ps ih => simp [Bloom.renderPetalsFl, ih]

theorem Bloom.renderPetalsFl_snd (fl : ℚ → ℚ) (R : ℚ) (ps : List Petal) (acc : Bool) :
    (Bloom.renderPetalsFl fl R ps acc).2 = true ↔
      acc = true ∧ ∀ p ∈ (Bloom.renderPetalsFl fl R ps acc).1, p.isfinished = true := by
  induction ps generalizing acc with
  | nil => simp [Bloom.renderPetalsFl]
  | cons p ps ih =>
    simp only [Bloom.renderPetalsFl, ih, Bool.and_eq_true, List.mem_cons, forall_eq_or_imp]
    tauto

theorem Bloom.drawFl_petals (fl : ℚ → ℚ) (g : Garden) (this : ℕ) :
    ((Bloom.drawFl fl g this).store this).petals =
      (Bloom.renderPetalsFl fl (g.store this).r (g.store this).petals true).1 ∧
    ((Bloom.drawFl fl g this).store this).r = (g.store this).r := by
  unfold Bloom.drawFl
  simp only
  split <;> simp [Garden.removeBloom_store]

theorem Bloom.drawFl_blooms_eq (fl : ℚ → ℚ) (g : Garden) (this : ℕ) :
    (Bloom.drawFl fl g this).blooms =
      if (Bloom.renderPetalsFl fl (g.store this).r (g.store this).petals true).2 = true then
        g.blooms.erase this
      else g.blooms := by
  unfold Bloom.drawFl
  simp only
  split
  · rw [Garden.removeBloom_blooms]
  · rfl

theorem Bloom.drawFl_frameInterval (fl : ℚ → ℚ) (g : Garden) (this : ℕ) :
    (Bloom.drawFl fl g this).frameInterval = g.frameInterval := by
  unfold Bloom.drawFl Garden.removeBloom
  simp only
  split
  · split <;> rfl
  · rfl

theorem Garden.rendersFl_append (fl : ℚ → ℚ) (g : Garden) (ts1 ts2 : List ℚ) :
    (g.rendersFl fl (ts1 ++ ts2)).1 = ((g.rendersFl fl ts1).1.rendersFl fl ts2).1 := by
  induction ts1 generalizing g with
  | nil => rfl
  | cons t ts ih =>
    show ((g.renderFl fl t).1.rendersFl fl (ts ++ ts2)).1 = _
    rw [ih]
    rfl

theorem Garden.renderFl_single (fl : ℚ → ℚ) (g : Garden) (b : ℕ) (t : ℚ) (hb : g.blooms = [b])
    (ht : t - g.lastTime ≥ g.frameInterval) :
    (g.renderFl fl t).1 = { Bloom.drawFl fl g b with lastTime := t } := by
  unfold Garden.renderFl
  rw [if_pos ht]
  simp [hb, Garden.renderLoopFl]

theorem Garden.renderFl_empty (fl : ℚ → ℚ) (g : Garden) (t : ℚ) (hb : g.blooms = []) :
    (g.renderFl fl t).1.blooms = [] ∧ (g.renderFl fl t).1.store = g.store ∧
      (g.renderFl fl t).1.frameInterval = g.frameInterval := by
  unfold Garden.renderFl
  split
  · simp [hb, Garden.renderLoopFl]
  · exact ⟨hb, rfl, rfl⟩

/-- Two render calls 16 ms apart after a frame at `32 * k`: the first is dropped, the second
draws frame `k + 1`. -/
theorem SoloInv.step (fl : ℚ → ℚ) (b : ℕ) (R : ℚ) (ps0 : List Petal) (k : ℕ) (g : Garden)
    (h : SoloInv fl b R ps0 k g) :
    SoloInv fl b R ps0 (k + 1)
      (g.rendersFl fl [32 * (k : ℚ) + 16, 32 * (k : ℚ) + 32]).1 := by
  obtain ⟨hlo, hhi, hlt, hcase⟩ := h
  have h1 : g.renderFl fl (32 * (k : ℚ) + 16) = (g, []) := by
    unfold Garden.renderFl
    rw [if_neg]
    rw [hlt]
    have : 32 * (k : ℚ) + 16 - 32 * (k : ℚ) = 16 := by ring
    rw [this]
    exact not_le.mpr hlo
  have ht : 32 * (k : ℚ) + 32 - g.lastTime ≥ g.frameInterval := by
    rw [hlt]
    have : 32 * (k : ℚ) + 32 - 32 * (k : ℚ) = 32 := by ring
    rw [this]
    exact hhi
  simp only [Garden.rendersFl, h1]
  have hcast : (32 : ℚ) * ((k + 1 : ℕ) : ℚ) = 32 * (k : ℚ) + 32 := by push_cast; ring
  rcases hcase with ⟨hb, hR, hps, _⟩ | ⟨hb, ⟨j, hj, hpj⟩, hfin⟩
  · rw [Garden.renderFl_single fl g b _ hb ht]
    have hfi := Bloom.drawFl_frameInterval fl g b
    refine ⟨by simpa [hfi] using hlo, by simpa [hfi] using hhi, by simpa using hcast.symm, ?_⟩
    have hpet : ((Bloom.drawFl fl g b).store b).petals =
        ps0.map (Petal.renderFlN fl R (k + 1)) := by
      rw [(Bloom.drawFl_petals fl g b).1, Bloom.renderPetalsFl_fst, hR, hps, List.map_map]
      rfl
    by_cases hflag : (Bloom.renderPetalsFl fl (g.store b).r (g.store b).petals true).2 = true
    · right
      refine ⟨?_, ⟨k + 1, le_refl _, hpet⟩, ?_⟩
      · show (Bloom.drawFl fl g b).blooms = []
        rw [Bloom.drawFl_blooms_eq, if_pos hflag, hb]
        simp
      · show ∀ p ∈ ((Bloom.drawFl fl g b).store b).petals, p.isfinished = true
        rw [(Bloom.drawFl_petals fl g b).1]
        exact ((Bloom.renderPetalsFl_snd _ _ _ _).mp hflag).2
    · left
      refine ⟨?_, ?_, hpet, Or.inr ?_⟩
      · show (Bloom.drawFl fl g b).blooms = [b]
        rw [Bloom.drawFl_blooms_eq, if_neg hflag, hb]
      · show ((Bloom.drawFl fl g b).store b).r = R
        rw [(Bloom.drawFl_petals fl g b).2, hR]
      · show ¬ ∀ p ∈ ((Bloom.drawFl fl g b).store b).petals, p.isfinished = true
        rw [(Bloom.drawFl_petals fl g b).1]
        exact fun hall => hflag ((Bloom.renderPetalsFl_snd _ _ _ _).mpr ⟨rfl, hall⟩)
  · obtain ⟨e1, e2, e3⟩ := Garden.renderFl_empty fl g (32 * (k : ℚ) + 32) hb
    refine ⟨by rw [e3]; exact hlo, by rw [e3]; exact hhi, ?_,
      Or.inr ⟨e1, ⟨j, by omega, by rw [e2]; exact hpj⟩, by rw [e2]; exact hfin⟩⟩
    unfold Garden.renderFl
    rw [if_pos ht]
    simpa using hcast.symm

theorem SoloInv.steps (fl : ℚ → ℚ) (b : ℕ) (R : ℚ) (ps0 : List Petal) (n k : ℕ) (g : Garden)
    (h : SoloInv fl b R ps0 k g) :
    SoloInv fl b R ps0 (k + n) (g.rendersFl fl (pairTimes k n)).1 := by
  induction n generalizing k g with
  | zero => simpa [pairTimes, Garden.rendersFl] using h
  | succ n ih =>
    have hs := SoloInv.step fl b R ps0 k g h
    have := ih (k + 1) _ hs
    rw [show k + (n + 1) = k + 1 + n by omega]
    rw [show pairTimes k (n + 1) =
      [32 * (k : ℚ) + 16, 32 * (k : ℚ) + 32] ++ pairTimes (k + 1) n from rfl,
      Garden.rendersFl_append]
    exact this

/-- After 25 frames a single Bloom whose petals all pass `R` within 24 additions is finished
and removed. -/
theorem SoloInv.finished_25 (fl : ℚ → ℚ) (b : ℕ) (R : ℚ) (ps0 : List Petal) (g : Garden)
    (h : SoloInv fl b R ps0 25 g) (hfresh : ∀ p ∈ ps0, p.r = 1)
    (hfast : ∀ p ∈ ps0, ∃ j, j < 25 ∧ R < Petal.growFl fl p.growFactor j) :
    g.blooms = [] ∧ ∀ p ∈ (g.store b).petals, p.isfinished = true := by
  obtain ⟨_, _, _, ⟨_, _, hps, hnot⟩ | h2⟩ := h
  · exfalso
    rcases hnot with h0 | hnot
    · omega
    · apply hnot
      rw [hps]
      intro p hp
      obtain ⟨q, hq, rfl⟩ := List.mem_map.mp hp
      exact Petal.renderFlN_finished_25 fl R q (hfresh q hq) (hfast q hq)
  · exact ⟨h2.1, h2.2.2⟩

/-- After 25 frames a single Bloom with a petal that does not pass `R` within 24 additions is
still registered. -/
theorem SoloInv.unfinished_25 (fl : ℚ → ℚ) (b : ℕ) (R : ℚ) (ps0 : List Petal) (g : Garden)
    (h : SoloInv fl b R ps0 25 g) (hfresh : ∀ p ∈ ps0, p.r = 1 ∧ p.isfinished = false)
    (hslow : ∃ p ∈ ps0, ∀ j, j < 25 → Petal.growFl fl p.growFactor j ≤ R) :
    g.blooms = [b] := by
  obtain ⟨_, _, _, h1 | ⟨_, ⟨j, hj, hpj⟩, hfin⟩⟩ := h
  · exact h1.1
  · exfalso
    obtain ⟨q, hq, hs⟩ := hslow
    have hmem : Petal.renderFlN fl R j q ∈ (g.store b).petals := by
      rw [hpj]; exact List.mem_map.mpr ⟨q, hq, rfl⟩
    have h1 := hfin _ hmem
    have h2 := (Petal.renderFlN_unfinished fl R q (hfresh q hq).1 (hfresh q hq).2 hs j hj).1
    rw [h1] at h2
    exact Bool.noConfusion h2

/-- The 50 render calls at 16, 32, ..., 800 on any garden that holds one Bloom with fresh
petals, has `lastTime = 0` and a frame interval between 16 and 32 ms: when every petal passes
the radius within 24 additions, all petals end finished and `garden.blooms` empty, also after
the call at 816. -/
theorem Garden.solo_finishes (fl : ℚ → ℚ) (g : Garden) (b : ℕ) (hb : g.blooms = [b])
    (hlo : 16 < g.frameInterval) (hhi : g.frameInterval ≤ 32) (hlt : g.lastTime = 0)
    (hfresh : ∀ p ∈ (g.store b).petals, p.r = 1)
    (hfast : ∀ p ∈ (g.store b).petals,
      ∃ j, j < 25 ∧ (g.store b).r < Petal.growFl fl p.growFactor j) :
    (∀ p ∈ ((g.rendersFl fl (tickTimes 50)).1.store b).petals, p.isfinished = true) ∧
    (g.rendersFl fl (tickTimes 50)).1.blooms = [] ∧
    (g.rendersFl fl (tickTimes 51)).1.blooms = [] := by
  have h0 : SoloInv fl b (g.store b).r (g.store b).petals 0 g := by
    refine ⟨hlo, hhi, by simp [hlt], Or.inl ⟨hb, rfl, ?_, Or.inl rfl⟩⟩
    simp [Petal.renderFlN]
  have h25 := SoloInv.steps fl b (g.store b).r (g.store b).petals 25 0 g h0
  obtain ⟨hempty, hfin⟩ := SoloInv.finished_25 fl b _ _ _ h25 hfresh hfast
  have e50 : tickTimes 50 = pairTimes 0 25 := by decide!
  have e51 : tickTimes 51 = pairTimes 0 25 ++ [816] := by decide!
  refine ⟨by rw [e50]; exact hfin, by rw [e50]; exact hempty, ?_⟩
  rw [e51, Garden.rendersFl_append]
  show ((((g.rendersFl fl (pairTimes 0 25)).1).renderFl fl 816).1).blooms = []
  exact (Garden.renderFl_empty fl _ 816 hempty).1

/-- The same run when some petal does not pass the radius within 24 additions: the Bloom is
still registered after the 50 calls. -/
theorem Garden.solo_unfinished (fl : ℚ → ℚ) (g : Garden) (b : ℕ) (hb : g.blooms = [b])
    (hlo : 16 < g.frameInterval) (hhi : g.frameInterval ≤ 32) (hlt : g.lastTime = 0)
    (hfresh : ∀ p ∈ (g.store b).petals, p.r = 1 ∧ p.isfinished = false)
    (hslow : ∃ p ∈ (g.store b).petals,
      ∀ j, j < 25 → Petal.growFl fl p.growFactor j ≤ (g.store b).r) :
    (g.rendersFl fl (tickTimes 50)).1.blooms = [b] := by
  have h0 : SoloInv fl b (g.store b).r (g.store b).petals 0 g := by
    refine ⟨hlo, hhi, by simp [hlt], Or.inl ⟨hb, rfl, ?_, Or.inl rfl⟩⟩
    simp [Petal.renderFlN]
  have h25 := SoloInv.steps fl b (g.store b).r (g.store b).petals 25 0 g h0
  have e50 : tickTimes 50 = pairTimes 0 25 := by decide!
  rw [e50]
  exact SoloInv.unfinished_25 fl b _ _ _ h25 hfresh hslow

/-! ## Claims: the 50-tick scenario -/

/-- C9 as stated fails: on the 670x625 surface with a desktop viewport, a fresh garden and
the default options, when every `Math.random()` sample is `0` (inside `[0, 1)`),
`createRandomBloom(335, 312)` returns and registers the Bloom (radius 8, 8 petals of the
least `growFactor`, 0.1), and after the 50 render calls at 16, 32, ..., 800 the Bloom is still in
`garden.blooms`, none of its petals is finished, and it is still registered after the call
of tick 51. -/
theorem fifty_ticks_unfinished :
    (∀ n, 0 ≤ zeroStream n ∧ zeroStream n < 1) ∧
    (Garden.createRandomBloom 1 (Garden.new 1024 Garden.options ⟨670, 625⟩).2 1024 zeroStream 0
      freshGarden 335 312).isSome = true ∧
    slowBloomGarden.blooms = [0] ∧
    (slowBloomGarden.store 0).r = 8 ∧
    (slowBloomGarden.renders (tickTimes 50)).1.blooms = [0] ∧
    ((slowBloomGarden.renders (tickTimes 50)).1.store 0).petals.length = 8 ∧
    (∀ p ∈ ((slowBloomGarden.renders (tickTimes 50)).1.store 0).petals,
      p.isfinished = false) ∧
    (slowBloomGarden.renders (tickTimes 51)).1.blooms = [0] := by
  refine ⟨fun n => by norm_num [zeroStream], by decide!, by decide!, by decide!, by decide!,
    by decide!, by decide!, by decide!⟩

/-- C9 amended.  `fl` is the rounding of doubles in `this.r += this.growFactor` (any function:
nothing is assumed of it, so the statement holds of the sums the machine really computes).
On the fresh garden of the 670x625 surface (whatever `Garden.options` and the viewport width
are, so also for the default options on a desktop viewport), for every outcome of the random
samples for which `createRandomBloom(335, 312)` returns and in which, for every petal of the
created Bloom, the radius that starts at 1 and grows by `growFactor` per drawn frame is above
the Bloom's radius `r` after at most 24 additions: the Bloom is registered as
`garden.blooms = [0]`, and after the 50 render calls at 16, 32, ..., 800 (25 drawn frames)
every petal of the Bloom has `isfinished = true` and `garden.blooms` is empty, as it still is
after the call of tick 51. -/
theorem fifty_ticks_finish (fl : ℚ → ℚ) (o : Options) (innerWidth : ℚ) (rnd : ℕ → ℚ)
    (k fuel : ℕ) (res : Garden × ℕ)
    (hres : Garden.createRandomBloom fuel o innerWidth rnd k freshGarden 335 312 = some res)
    (hfast : ∀ p ∈ (res.1.store 0).petals,
      ∃ j, j < 25 ∧ (res.1.store 0).r < Petal.growFl fl p.growFactor j) :
    res.1.blooms = [0] ∧
    (∀ p ∈ ((res.1.rendersFl fl (tickTimes 50)).1.store 0).petals, p.isfinished = true) ∧
    (res.1.rendersFl fl (tickTimes 50)).1.blooms = [] ∧
    (res.1.rendersFl fl (tickTimes 51)).1.blooms = [] := by
  obtain ⟨c, k1, _, rfl⟩ := Garden.createRandomBloom_some fuel o innerWidth rnd k freshGarden 335
    312 res hres
  set g := (Garden.createBloom o innerWidth rnd (k1 + 1) freshGarden
    (max 0 (min 335 freshGarden.element.width)) (max 0 (min 312 freshGarden.element.height))
    (Garden.randomInt (rnd k) o.bloomRadius.min o.bloomRadius.max) c
    (Garden.randomInt (rnd k1) o.petalCount.min o.petalCount.max)).1 with hg
  have hbl : g.blooms = [0] := rfl
  have hstore := Garden.createBloom_store_new o innerWidth rnd (k1 + 1) freshGarden
    (max 0 (min 335 freshGarden.element.width)) (max 0 (min 312 freshGarden.element.height))
    (Garden.randomInt (rnd k) o.bloomRadius.min o.bloomRadius.max) c
    (Garden.randomInt (rnd k1) o.petalCount.min o.petalCount.max)
  have hfresh : ∀ p ∈ (g.store 0).petals, p.r = 1 := by
    intro p hp
    have e : g.store 0 = _ := hstore
    rw [e] at hp
    exact (Bloom.initLoop_fresh _ _ _ _ _ _ _ p hp).1
  have hfi : g.frameInterval = 1000 / 60 := rfl
  have hlt : g.lastTime = 0 := rfl
  exact ⟨hbl, Garden.solo_finishes fl g 0 hbl (by rw [hfi]; norm_num) (by rw [hfi]; norm_num)
    hlt hfresh hfast⟩

/-- C9 amended, at the samples `1/2` and without rounding: radius 9, 12 petals of
`growFactor` 11/20, whose radius is above 9 after 15 additions; after the 50 calls the Bloom
is finished and removed. -/
theorem fifty_ticks_finish_witness :
    oneBloomGarden.blooms = [0] ∧
    (∀ p ∈ ((oneBloomGarden.rendersFl id (tickTimes 50)).1.store 0).petals,
      p.isfinished = true) ∧
    (oneBloomGarden.rendersFl id (tickTimes 50)).1.blooms = [] ∧
    (oneBloomGarden.rendersFl id (tickTimes 51)).1.blooms = [] := by
  have hs : (Garden.createRandomBloom 1 Garden.options 1024 halfStream 0 freshGarden 335
      312).isSome = true := by decide!
  obtain ⟨res, hres⟩ := Option.isSome_iff_exists.mp hs
  have e : oneBloomGarden = res.1 := by
    unfold oneBloomGarden
    rw [hres]
    rfl
  have hfast : ∀ p ∈ (oneBloomGarden.store 0).petals,
      ∃ j, j < 25 ∧ (oneBloomGarden.store 0).r < Petal.growFl id p.growFactor j := by decide!
  rw [e] at hfast ⊢
  exact fifty_ticks_finish id Garden.options 1024 halfStream 0 1 res hres hfast

/-- The growth condition of the 50-tick scenario is sharp: when for some petal of the created
Bloom the radius is not above `r` after any of the first 24 additions, the Bloom is still in
`garden.blooms` after the 50 render calls. -/
theorem fifty_ticks_slow_petal (fl : ℚ → ℚ) (o : Options) (innerWidth : ℚ) (rnd : ℕ → ℚ)
    (k fuel : ℕ) (res : Garden × ℕ)
    (hres : Garden.createRandomBloom fuel o innerWidth rnd k freshGarden 335 312 = some res)
    (hslow : ∃ p ∈ (res.1.store 0).petals,
      ∀ j, j < 25 → Petal.growFl fl p.growFactor j ≤ (res.1.store 0).r) :
    (res.1.rendersFl fl (tickTimes 50)).1.blooms = [0] := by
  obtain ⟨c, k1, _, rfl⟩ := Garden.createRandomBloom_some fuel o innerWidth rnd k freshGarden 335
    312 res hres
  set g := (Garden.createBloom o innerWidth rnd (k1 + 1) freshGarden
    (max 0 (min 335 freshGarden.element.width)) (max 0 (min 312 freshGarden.element.height))
    (Garden.randomInt (rnd k) o.bloomRadius.min o.bloomRadius.max) c
    (Garden.randomInt (rnd k1) o.petalCount.min o.petalCount.max)).1 with hg
  have hstore := Garden.createBloom_store_new o innerWidth rnd (k1 + 1) freshGarden
    (max 0 (min 335 freshGarden.element.width)) (max 0 (min 312 freshGarden.element.height))
    (Garden.randomInt (rnd k) o.bloomRadius.min o.bloomRadius.max) c
    (Garden.randomInt (rnd k1) o.petalCount.min o.petalCount.max)
  have hfresh : ∀ p ∈ (g.store 0).petals, p.r = 1 ∧ p.isfinished = false := by
    intro p hp
    have e : g.store 0 = _ := hstore
    rw [e] at hp
    exact Bloom.initLoop_fresh _ _ _ _ _ _ _ p hp
  have hfi : g.frameInterval = 1000 / 60 := rfl
  exact Garden.solo_unfinished fl g 0 rfl (by rw [hfi]; norm_num) (by rw [hfi]; norm_num) rfl
    hfresh hslow

/-! ## Claims: resize and scale -/

/-- C11: `Garden.resize` under a viewport width that changed from desktop (`wOld > 768`,
the width at the previous `setupResponsive`) to mobile (`w <= 480`) sets the density
parameters to the mobile values (density 5, bloomRadius [4,6], petalCount [6,10], opacity
0.15) and leaves `garden.blooms`, every stored Bloom with its Petals, and `lastTime`
unchanged; before the call the parameters were the desktop ones. -/
theorem resize_desktop_to_mobile (g : Garden) (rect : Canvas) (o : Options) (wOld w : ℚ)
    (hold : 768 < wOld) (hw : w ≤ 480) :
    (Garden.setupResponsive wOld o).density = 10 ∧
    (Garden.resize rect w (Garden.setupResponsive wOld o) g).2.density = 5 ∧
    (Garden.resize rect w (Garden.setupResponsive wOld o) g).2.bloomRadius = ⟨4, 6⟩ ∧
    (Garden.resize rect w (Garden.setupResponsive wOld o) g).2.petalCount = ⟨6, 10⟩ ∧
    (Garden.resize rect w (Garden.setupResponsive wOld o) g).2.color.opacity = 15 / 100 ∧
    (Garden.resize rect w (Garden.setupResponsive wOld o) g).1.blooms = g.blooms ∧
    (Garden.resize rect w (Garden.setupResponsive wOld o) g).1.store = g.store ∧
    (Garden.resize rect w (Garden.setupResponsive wOld o) g).1.lastTime = g.lastTime := by
  have h1 : ¬ wOld ≤ 480 := by linarith
  have h2 : ¬ wOld ≤ 768 := by linarith
  refine ⟨by simp [Garden.setupResponsive, h1, h2], ?_, ?_, ?_, ?_, rfl, rfl, rfl⟩ <;>
    simp [Garden.resize, Garden.setupResponsive, hw]

/-- C11 on the garden with two Blooms in flight: a resize from width 1024 to width 400 gives
density 5 and keeps both Blooms registered. -/
theorem resize_desktop_to_mobile_witness :
    (Garden.resize ⟨380, 300⟩ 400 (Garden.setupResponsive 1024 Garden.options)
      twoBloomGarden).2.density = 5 ∧
    (Garden.resize ⟨380, 300⟩ 400 (Garden.setupResponsive 1024 Garden.options)
      twoBloomGarden).1.blooms = [0, 1] := by
  have h := resize_desktop_to_mobile twoBloomGarden ⟨380, 300⟩ Garden.options 1024 400
    (by norm_num) (by norm_num)
  refine ⟨h.2.1, ?_⟩
  rw [h.2.2.2.2.2.1]
  decide!

theorem Garden.getResponsiveScale_le_one (width : ℚ) : Garden.getResponsiveScale width ≤ 1 := by
  unfold Garden.getResponsiveScale
  split
  · norm_num
  · split <;> norm_num

theorem Bloom.draw_scale (g : Garden) (this : ℕ) :
    ((Bloom.draw g this).store this).scale =
      (if (g.store this).scale < (g.store this).maxScale then (g.store this).scale + 2 / 100
       else (g.store this).scale) ∧
    ((Bloom.draw g this).store this).maxScale = (g.store this).maxScale := by
  unfold Bloom.draw
  simp only
  split <;> simp [Garden.removeBloom_store]

/-- A Bloom whose `scale` is 1 and whose `maxScale` is at most 1 keeps `scale = 1` over any
number of `draw` calls: the test `this.scale < this.maxScale` never holds. -/
theorem Bloom.drawN_scale (n : ℕ) (g : Garden) (this : ℕ) (hs : (g.store this).scale = 1)
    (hm : (g.store this).maxScale ≤ 1) :
    ((Bloom.drawN n g this).store this).scale = 1 ∧
    ((Bloom.drawN n g this).store this).maxScale = (g.store this).maxScale := by
  induction n with
  | zero => exact ⟨hs, rfl⟩
  | succ n ih =>
    obtain ⟨h1, h2⟩ := ih
    obtain ⟨e1, e2⟩ := Bloom.draw_scale (Bloom.drawN n g this) this
    refine ⟨?_, by rw [Bloom.drawN, e2, h2]⟩
    rw [Bloom.drawN, e1, h1, h2, if_neg (not_lt.mpr hm)]

/-- C12, the code: a Bloom constructed under any viewport width has `scale = 1` after any
number `n` of `Bloom.draw` calls, and its `maxScale` is the factor of the viewport class;
on a mobile viewport (width 400) that factor is 0.7 and on a tablet viewport (width 600)
0.85, so there the scale never moves and never equals `maxScale`; on a desktop viewport
(width 1024) the factor is 1. -/
theorem scale_stays_one (o : Options) (innerWidth : ℚ) (rnd : ℕ → ℚ) (k : ℕ) (p : Vector ℚ)
    (r : ℚ) (c : Rgba) (pc : ℚ) (g : Garden) (n : ℕ) :
    ((Bloom.drawN n (Bloom.new o innerWidth rnd k p r c pc g).1 g.nextRef).store
      g.nextRef).scale = 1 ∧
    ((Bloom.drawN n (Bloom.new o innerWidth rnd k p r c pc g).1 g.nextRef).store
      g.nextRef).maxScale = Garden.getResponsiveScale innerWidth ∧
    Garden.getResponsiveScale 400 = 7 / 10 ∧
    Garden.getResponsiveScale 600 = 85 / 100 ∧
    Garden.getResponsiveScale 1024 = 1 := by
  have hst : (Bloom.new o innerWidth rnd k p r c pc g).1.store g.nextRef =
      { p := p, r := r, c := c, pc := pc, petals := (Bloom.init o rnd k pc).1, scale := 1,
        maxScale := Garden.getResponsiveScale innerWidth } := by
    simp [Bloom.new, Garden.addBloom]
  obtain ⟨h1, h2⟩ := Bloom.drawN_scale n (Bloom.new o innerWidth rnd k p r c pc g).1 g.nextRef
    (by rw [hst]) (by rw [hst]; exact Garden.getResponsiveScale_le_one innerWidth)
  refine ⟨h1, by rw [h2, hst], ?_, ?_, ?_⟩ <;> norm_num [Garden.getResponsiveScale]

/-! ## Claims: constructing a Bloom -/

theorem Bloom.initLoop_length (o : Options) (rnd : ℕ → ℚ) (angle startAngle : ℚ) (n i k : ℕ) :
    (Bloom.initLoop o rnd angle startAngle n i k).length = n := by
  induction n generalizing i k with
  | zero => rfl
  | succ n ih => simp [Bloom.initLoop, ih]

/-- The `j`-th petal pushed by the loop of `Bloom.init` started at index `i`. -/
theorem Bloom.initLoop_getElem (o : Options) (rnd : ℕ → ℚ) (angle startAngle : ℚ)
    (n i k j : ℕ) (q : Petal)
    (h : (Bloom.initLoop o rnd angle startAngle n i k)[j]? = some q) :
    q.startAngle = startAngle + ((i + j : ℕ) : ℚ) * angle ∧ q.angle = angle ∧
      q.opacity = 0 := by
  induction n generalizing i k j with
  | zero => simp [Bloom.initLoop] at h
  | succ n ih =>
    cases j with
    | zero =>
      simp only [Bloom.initLoop, List.getElem?_cons_zero, Option.some.injEq] at h
      subst h
      exact ⟨rfl, rfl, rfl⟩
    | succ j =>
      simp only [Bloom.initLoop, List.getElem?_cons_succ] at h
      have := ih (i + 1) (k + 3) j h
      rwa [show i + 1 + j = i + (j + 1) by omega] at this

theorem Bloom.petalIterations_natCast (pc : ℕ) : Bloom.petalIterations (pc : ℚ) = pc := by
  simp [Bloom.petalIterations]

/-- C13 as stated fails: with the sample `99/100` (inside `[0, 1)`) and petal count 8, the
start angle drawn by `Garden.randomInt(0, 90)` is `floor(0.99 * 91) = 90`, the first petal
of the new Bloom has `startAngle = 90`, and there is no `s` with `0 <= s < 90` from which the
petals are spread. -/
theorem bloom_init_start_angle_90 :
    (0 ≤ lateStream 0 ∧ lateStream 0 < 1) ∧
    (((Bloom.new Garden.options 1024 lateStream 0 ⟨335, 312⟩ 9 ⟨254, 127, 127, 1 / 10⟩ 8
      freshGarden).1.store 0).petals[0]?).map Petal.startAngle = some 90 ∧
    ¬ ∃ s : ℚ, 0 ≤ s ∧ s < 90 ∧ ∀ (i : ℕ) (q : Petal),
      ((Bloom.new Garden.options 1024 lateStream 0 ⟨335, 312⟩ 9 ⟨254, 127, 127, 1 / 10⟩ 8
        freshGarden).1.store 0).petals[i]? = some q →
      q.startAngle = s + (i : ℚ) * (360 / 8) := by
  have h0 : (((Bloom.new Garden.options 1024 lateStream 0 ⟨335, 312⟩ 9
      ⟨254, 127, 127, 1 / 10⟩ 8 freshGarden).1.store 0).petals[0]?).map Petal.startAngle =
      some 90 := by decide!
  refine ⟨by norm_num [lateStream], h0, ?_⟩
  rintro ⟨s, _, hlt, hall⟩
  cases hq : ((Bloom.new Garden.options 1024 lateStream 0 ⟨335, 312⟩ 9
      ⟨254, 127, 127, 1 / 10⟩ 8 freshGarden).1.store 0).petals[0]? with
  | none => rw [hq] at h0; simp at h0
  | some q =>
    rw [hq] at h0
    simp only [Option.map_some', Option.some.injEq] at h0
    have := hall 0 q hq
    rw [h0] at this
    norm_num at this
    linarith

/-- C13 amended: for every petal count `pc` (a natural number, so also for `pc >= 1`) and
every outcome of the random samples with each `Math.random()` value in `[0, 1)`, a newly
constructed Bloom is appended as the last element of `garden.blooms`, has exactly `pc`
petals, and there is one integer start angle `s` with `0 <= s <= 90` such that the `i`-th
petal (`0 <= i < pc`) has `startAngle = s + i * (360 / pc)` and `angle = 360 / pc`. -/
theorem bloom_init_petals (o : Options) (innerWidth : ℚ) (rnd : ℕ → ℚ) (k : ℕ) (p : Vector ℚ)
    (r : ℚ) (c : Rgba) (pc : ℕ) (g : Garden) (hrnd : ∀ n, 0 ≤ rnd n ∧ rnd n < 1) :
    (Bloom.new o innerWidth rnd k p r c (pc : ℚ) g).1.blooms = g.blooms ++ [g.nextRef] ∧
    ((Bloom.new o innerWidth rnd k p r c (pc : ℚ) g).1.store g.nextRef).petals.length = pc ∧
    ∃ s : ℤ, 0 ≤ s ∧ s ≤ 90 ∧ ∀ i : ℕ, i < pc →
      ∃ q, ((Bloom.new o innerWidth rnd k p r c (pc : ℚ) g).1.store
          g.nextRef).petals[i]? = some q ∧
        q.startAngle = (s : ℚ) + (i : ℚ) * (360 / (pc : ℚ)) ∧ q.angle = 360 / (pc : ℚ) := by
  have hst : ((Bloom.new o innerWidth rnd k p r c (pc : ℚ) g).1.store g.nextRef).petals =
      Bloom.initLoop o rnd (360 / (pc : ℚ)) (Garden.randomInt (rnd k) 0 90) pc 0 (k + 1) := by
    simp [Bloom.new, Garden.addBloom, Bloom.init, Bloom.petalIterations_natCast]
  refine ⟨rfl, by rw [hst, Bloom.initLoop_length], ⌊rnd k * 91⌋, ?_, ?_, ?_⟩
  · exact Int.floor_nonneg.mpr (mul_nonneg (hrnd k).1 (by norm_num))
  · have h : rnd k * 91 < 91 := by nlinarith [(hrnd k).2]
    have : ⌊rnd k * 91⌋ < 91 := Int.floor_lt.mpr (by exact_mod_cast h)
    omega
  · intro i hi
    have hlen : i < (Bloom.initLoop o rnd (360 / (pc : ℚ)) (Garden.randomInt (rnd k) 0 90) pc 0
        (k + 1)).length := by rw [Bloom.initLoop_length]; exact hi
    refine ⟨_, by rw [hst]; exact List.getElem?_eq_getElem hlen, ?_⟩
    obtain ⟨h1, h2, _⟩ := Bloom.initLoop_getElem o rnd _ _ pc 0 (k + 1) i _
      (List.getElem?_eq_getElem hlen)
    refine ⟨?_, h2⟩
    rw [h1]
    simp only [Garden.randomInt, zero_add]
    norm_num

/-- C13 amended, at the samples `99/100` and petal count 8: the Bloom is registered last,
has 8 petals, and the start angle is an integer between 0 and 90 (here 90). -/
theorem bloom_init_petals_witness :
    (Bloom.new Garden.options 1024 lateStream 0 ⟨335, 312⟩ 9 ⟨254, 127, 127, 1 / 10⟩
      ((8 : ℕ) : ℚ) freshGarden).1.blooms = freshGarden.blooms ++ [freshGarden.nextRef] ∧
    ((Bloom.new Garden.options 1024 lateStream 0 ⟨335, 312⟩ 9 ⟨254, 127, 127, 1 / 10⟩
      ((8 : ℕ) : ℚ) freshGarden).1.store freshGarden.nextRef).petals.length = 8 :=
  have h := bloom_init_petals Garden.options 1024 lateStream 0 ⟨335, 312⟩ 9
    ⟨254, 127, 127, 1 / 10⟩ 8 freshGarden (fun _ => by norm_num [lateStream])
  ⟨h.1, h.2.1⟩

/-! ## Claims: the render loop of `LoveApp` -/

theorem Garden.renderNoArg_untouched (g : Garden) (h : g.Untouched) :
    g.renderNoArg = (g, []) := by
  unfold Garden.renderNoArg Garden.render
  rw [if_neg]
  rw [h.1, h.2.1]
  norm_num

theorem Bloom.initLoop_opacity (o : Options) (rnd : ℕ → ℚ) (angle startAngle : ℚ) (n i k : ℕ) :
    ∀ p ∈ Bloom.initLoop o rnd angle startAngle n i k, p.opacity = 0 := by
  induction n generalizing i k with
  | zero => simp [Bloom.initLoop]
  | succ n ih =>
    intro p hp
    simp only [Bloom.initLoop, List.mem_cons] at hp
    rcases hp with rfl | hp
    · rfl
    · exact ih _ _ p hp

theorem Garden.createBloom_untouched (o : Options) (innerWidth : ℚ) (rnd : ℕ → ℚ) (k : ℕ)
    (g : Garden) (x y r : ℚ) (c : Rgba) (pc : ℚ) (h : g.Untouched) :
    (Garden.createBloom o innerWidth rnd k g x y r c pc).1.Untouched := by
  obtain ⟨h1, h2, h3, h4⟩ := h
  refine ⟨h1, h2, ?_, ?_⟩
  · rw [Garden.createBloom_blooms, h3]
    exact (List.range_succ g.nextRef).symm
  · intro b hb p hp
    rw [Garden.createBloom_blooms] at hb
    simp only [List.mem_append, List.mem_singleton] at hb
    rcases hb with hb | rfl
    · have hne : b ≠ g.nextRef := by
        rw [h3] at hb
        exact Nat.ne_of_lt (List.mem_range.mp hb)
      rw [Garden.createBloom_store_old _ _ _ _ _ _ _ _ _ _ b hne] at hp
      exact h4 b hb p hp
    · rw [Garden.createBloom_store_new] at hp
      exact ⟨(Bloom.initLoop_fresh _ _ _ _ _ _ _ p hp).1, (Bloom.initLoop_fresh _ _ _ _ _ _ _ p hp).2,
        Bloom.initLoop_opacity _ _ _ _ _ _ _ p hp⟩

theorem LoveApp.drive_untouched (o : Options) (innerWidth : ℚ) (rnd : ℕ → ℚ)
    (events : List GardenEvent) (st : Garden × ℕ) (h : st.1.Untouched) :
    (LoveApp.drive o innerWidth rnd st events).2 = [] ∧
    (LoveApp.drive o innerWidth rnd st events).1.1.Untouched ∧
    st.1.blooms <+: (LoveApp.drive o innerWidth rnd st events).1.1.blooms := by
  induction events generalizing st with
  | nil => exact ⟨rfl, h, List.prefix_refl _⟩
  | cons e es ih =>
    cases e with
    | frame =>
      simp only [LoveApp.drive, Garden.renderNoArg_untouched st.1 h, List.nil_append]
      exact ih (st.1, st.2) h
    | create x y fuel =>
      simp only [LoveApp.drive]
      cases hc : Garden.createRandomBloom fuel o innerWidth rnd st.2 st.1 x y with
      | none => exact ih st h
      | some st1 =>
        obtain ⟨c, k1, _, rfl⟩ := Garden.createRandomBloom_some fuel o innerWidth rnd st.2 st.1
          x y st1 hc
        obtain ⟨i1, i2, i3⟩ := ih _ (Garden.createBloom_untouched o innerWidth rnd (k1 + 1) st.1 _ _
          _ c _ h)
        refine ⟨i1, i2, List.IsPrefix.trans ?_ i3⟩
        rw [Garden.createBloom_blooms]
        exact List.prefix_append _ _

/-- C14: a freshly constructed Garden driven by render calls without an argument
(`currentTime` defaulting to 0) and `createRandomBloom` calls, in any number and any order:
no `Bloom.draw` (hence no `Petal.render`) is ever invoked; afterwards `lastTime` is still 0,
another render call without an argument is again a no-op, every Bloom ever created is still
in `garden.blooms` (none was removed), and every petal still has `r = 1`,
`isfinished = false` and `opacity = 0`.  Here `o0` is `Garden.options` when the garden is
constructed and `o` is `Garden.options` during the run. -/
theorem render_loop_never_draws (o0 o : Options) (innerWidth : ℚ) (element : Canvas)
    (rnd : ℕ → ℚ) (k : ℕ) (events : List GardenEvent) :
    (LoveApp.drive o innerWidth rnd ((Garden.new innerWidth o0 element).1, k) events).2 = [] ∧
    (LoveApp.drive o innerWidth rnd ((Garden.new innerWidth o0 element).1, k)
      events).1.1.lastTime = 0 ∧
    (LoveApp.drive o innerWidth rnd ((Garden.new innerWidth o0 element).1, k)
        events).1.1.renderNoArg =
      ((LoveApp.drive o innerWidth rnd ((Garden.new innerWidth o0 element).1, k)
        events).1.1, []) ∧
    (LoveApp.drive o innerWidth rnd ((Garden.new innerWidth o0 element).1, k)
        events).1.1.blooms =
      List.range (LoveApp.drive o innerWidth rnd ((Garden.new innerWidth o0 element).1, k)
        events).1.1.nextRef ∧
    (∀ b ∈ (LoveApp.drive o innerWidth rnd ((Garden.new innerWidth o0 element).1, k)
        events).1.1.blooms,
      ∀ p ∈ ((LoveApp.drive o innerWidth rnd ((Garden.new innerWidth o0 element).1, k)
        events).1.1.store b).petals, p.r = 1 ∧ p.isfinished = false ∧ p.opacity = 0) := by
  have h0 : (Garden.new innerWidth o0 element).1.Untouched :=
    ⟨rfl, rfl, rfl, fun b hb => by simp [Garden.new] at hb⟩
  obtain ⟨h1, h2, _⟩ := LoveApp.drive_untouched o innerWidth rnd events
    ((Garden.new innerWidth o0 element).1, k) h0
  exact ⟨h1, h2.1, Garden.renderNoArg_untouched _ h2, h2.2.2.1, h2.2.2.2⟩

/-- A run of the loop on the fresh 670x625 garden: a Bloom is created between render calls
and stays registered, with its 12 petals, after them. -/
theorem LoveApp.drive_example :
    (LoveApp.drive Garden.options 1024 halfStream (freshGarden, 0)
      [GardenEvent.frame, GardenEvent.create 335 312 1, GardenEvent.frame,
        GardenEvent.frame]).1.1.blooms = [0] ∧
    ((LoveApp.drive Garden.options 1024 halfStream (freshGarden, 0)
      [GardenEvent.frame, GardenEvent.create 335 312 1, GardenEvent.frame,
        GardenEvent.frame]).1.1.store 0).petals.length = 12 := by
  refine ⟨by decide!, by decide!⟩

end Yagmur
